import Mathlib

set_option maxHeartbeats 1000000

/-!
Verification development for the displayz repository (display-topology model,
primary reassignment, stage/commit pipeline).

The definitions below are shallow embeddings of the Rust source:
  * src/src/types.rs           — Position / Resolution / Frequency / Orientation
                                 arithmetic, Display (formatting) and FromStr (parsing)
  * src/src/properties.rs      — DisplayProperties, DisplaySettings, from_windows,
                                 DisplayProperties::apply (legacy per-device commit)
  * src/src/display.rs         — DisplaySet, set_primary, apply (topology-graph commit)
  * src/src/platforms/windows/display.rs — legacy DisplaySet::set_primary / apply

Machine integers: Rust i32/u32 values are modelled as Int/Nat; the parsers keep
the Rust range checks (i32 / u32 overflow) explicitly.  Interior mutability
(Cell/RefCell) is modelled by explicit state passing: a mutating method returns
the new state together with its Result, and an early `return Err(..)` returns
the state as mutated so far, exactly like the in-place Rust code.
-/

/-- Position of a display: `Position(POINTL)` with `x y : i32`
(src/src/types.rs lines 8-26; src/src/properties.rs defines a textually
identical copy). -/

structure Position where
  x : Int
  y : Int
deriving DecidableEq, Repr

/-- Embeds `Position::new` (src/src/types.rs). -/

def Position.new (x y : Int) : Position := ⟨x, y⟩

/-- Embeds `impl Add for Position` (src/src/types.rs lines 28-37): componentwise sum. -/

instance : Add Position := ⟨fun p q => ⟨p.x + q.x, p.y + q.y⟩⟩

/-- Embeds `impl Sub for Position` (src/src/types.rs lines 39-48): componentwise difference. -/

instance : Sub Position := ⟨fun p q => ⟨p.x - q.x, p.y - q.y⟩⟩

/-- Embeds `impl Neg for Position` (src/src/types.rs lines 50-59): componentwise negation. -/

instance : Neg Position := ⟨fun p => ⟨-p.x, -p.y⟩⟩

/-- Resolution of a display: `width`, `height` are Rust `u32`
(src/src/types.rs lines 101-113). -/

structure Resolution where
  width : Nat
  height : Nat
deriving DecidableEq, Repr

/-- Embeds `Resolution::new` (src/src/types.rs). -/

def Resolution.new (width height : Nat) : Resolution := ⟨width, height⟩

/-- Refresh frequency in Hz, a Rust `u32` (src/src/types.rs lines 149-156). -/

structure Frequency where
  val : Nat
deriving DecidableEq, Repr

/-! ### Decimal formatting and integer parsing

Rust formats integers with `write!("{}", n)` (canonical decimal, `-` sign for
negative values) and parses them with `str::parse::<u32>/<i32>`
(`from_str_radix`: optional single sign character, then one or more ASCII
digits, with an overflow check against the integer type's range).  We model
strings as their character lists.
-/

/-- The ASCII digit character for a digit value. -/

def digitChar (d : Nat) : Char := Char.ofNat (48 + d)

/-- Embeds `char::to_digit(10)` as used by Rust's integer parser. -/

def charToDigit (c : Char) : Option Nat :=
  if 48 ≤ c.toNat ∧ c.toNat ≤ 57 then some (c.toNat - 48) else none

/-- Digit-accumulation loop of `from_str_radix`. -/

def parseDigitsAux : List Char → Nat → Option Nat
  | [], acc => some acc
  | c :: rest, acc =>
    match charToDigit c with
    | none => none
    | some d => parseDigitsAux rest (acc * 10 + d)

/-- Parse a nonempty all-digit string (the digit part of `from_str_radix`;
an empty digit part is an error). -/

def parseDigits (l : List Char) : Option Nat :=
  match l with
  | [] => none
  | _ :: _ => parseDigitsAux l 0

/-- Embeds `str::parse::<u32>`: optional leading `+`, digits, value below `2^32`.
A leading `-` is an invalid digit for an unsigned type; an empty string is
an error. -/

def parseU32 (l : List Char) : Option Nat :=
  match l with
  | [] => none
  | c :: rest =>
    if c = '+' then (parseDigits rest).bind fun v => if v < 2 ^ 32 then some v else none
    else if c = '-' then none
    else (parseDigits (c :: rest)).bind fun v => if v < 2 ^ 32 then some v else none

/-- Embeds `str::parse::<i32>`: optional sign, digits, i32 range check. -/

def parseI32 (l : List Char) : Option Int :=
  match l with
  | [] => none
  | c :: rest =>
    if c = '+' then
      (parseDigits rest).bind fun v => if v ≤ 2 ^ 31 - 1 then some (v : Int) else none
    else if c = '-' then
      (parseDigits rest).bind fun v => if v ≤ 2 ^ 31 then some (-(v : Int)) else none
    else
      (parseDigits (c :: rest)).bind fun v => if v ≤ 2 ^ 31 - 1 then some (v : Int) else none

/-- Big-endian decimal digits of `n`, fuel-based so the kernel can reduce it.
With fuel above `n` this is the canonical decimal digit string. -/

def natToCharsAux : Nat → Nat → List Char
  | 0, _ => []
  | fuel + 1, n =>
    if n < 10 then [digitChar n]
    else natToCharsAux fuel (n / 10) ++ [digitChar (n % 10)]

/-- Canonical decimal rendering of a `u32` value, as produced by `write!("{}", n)`. -/

def natToChars (n : Nat) : List Char := natToCharsAux (n + 1) n

/-- Canonical decimal rendering of an `i32` value (`-` sign for negatives). -/

def intToChars (i : Int) : List Char :=
  if i < 0 then '-' :: natToChars i.natAbs else natToChars i.natAbs

/-! ### String formatting and parsing of the public value types (src/src/types.rs)

Rust `&str` values are modelled as their character lists.  `str::split(c)` is
modelled by `splitOnChar`, which like the Rust iterator always yields at least
one (possibly empty) part.
-/

instance {ε α : Type} [DecidableEq ε] [DecidableEq α] : DecidableEq (Except ε α) := fun x y =>
  match x, y with
  | .ok a, .ok b => if h : a = b then .isTrue (by rw [h]) else .isFalse (by simp [h])
  | .error a, .error b => if h : a = b then .isTrue (by rw [h]) else .isFalse (by simp [h])
  | .ok _, .error _ => .isFalse (by simp)
  | .error _, .ok _ => .isFalse (by simp)

/-- Embeds `str::split(sep)`, collected: split a string at every occurrence of `sep`. -/

def splitOnChar (sep : Char) : List Char → List (List Char)
  | [] => [[]]
  | c :: rest =>
    match splitOnChar sep rest with
    | [] => [[]]
    | part :: parts => if c = sep then [] :: part :: parts else (c :: part) :: parts

/-- Errors of `Position::from_str` (src/src/types.rs lines 77-85).  The Rust
`IntError` variant wraps the standard `ParseIntError`; the wrapped kind is
collapsed here. -/

inductive ParsePositionError
  | intError
  | firstPart
  | secondPart
deriving DecidableEq, Repr

/-- Errors of `Resolution::from_str` (src/src/types.rs lines 121-130). -/

inductive ParseResolutionError
  | intError
  | firstPart
  | secondPart
deriving DecidableEq, Repr

/-- Error of `Frequency::from_str` (src/src/types.rs lines 164-168). -/

inductive ParseFrequencyError
  | intError
deriving DecidableEq, Repr

/-- Embeds `impl fmt::Display for Position` (src/src/types.rs lines 61-65):
`write!(f, "({}, {})", x, y)`. -/

def Position.fmtDisplay (p : Position) : List Char :=
  '(' :: intToChars p.x ++ ',' :: ' ' :: intToChars p.y ++ [')']

/-- Embeds `impl FromStr for Position` (src/src/types.rs lines 87-99): split on a
comma, parse the first two parts as `i32`; further parts are ignored. -/

def Position.from_str (s : List Char) : Except ParsePositionError Position :=
  match splitOnChar ',' s with
  | [] => .error .firstPart
  | p₁ :: rest =>
    match parseI32 p₁ with
    | none => .error .intError
    | some x =>
      match rest with
      | [] => .error .secondPart
      | p₂ :: _ =>
        match parseI32 p₂ with
        | none => .error .intError
        | some y => .ok (Position.new x y)

/-- Embeds `impl fmt::Display for Resolution` (src/src/types.rs lines 115-119):
`write!(f, "{}x{}", width, height)`. -/

def Resolution.fmtDisplay (r : Resolution) : List Char :=
  natToChars r.width ++ 'x' :: natToChars r.height

/-- Embeds `impl FromStr for Resolution` (src/src/types.rs lines 132-147). -/

def Resolution.from_str (s : List Char) : Except ParseResolutionError Resolution :=
  match splitOnChar 'x' s with
  | [] => .error .firstPart
  | p₁ :: rest =>
    match parseU32 p₁ with
    | none => .error .intError
    | some width =>
      match rest with
      | [] => .error .secondPart
      | p₂ :: _ =>
        match parseU32 p₂ with
        | none => .error .intError
        | some height => .ok (Resolution.new width height)

/-- Embeds `impl fmt::Display for Frequency` (src/src/types.rs lines 158-162). -/

def Frequency.fmtDisplay (f : Frequency) : List Char :=
  natToChars f.val

/-- Embeds `impl FromStr for Frequency` (src/src/types.rs lines 170-176). -/

def Frequency.from_str (s : List Char) : Except ParseFrequencyError Frequency :=
  match parseU32 s with
  | none => .error .intError
  | some v => .ok ⟨v⟩

namespace Types

/-- Embeds `Orientation` of src/src/types.rs lines 178-186 (discriminants 1-4).
src/src/properties.rs carries a distinct Orientation enum, embedded
separately below. -/
inductive Orientation
  | Landscape
  | Portrait
  | LandscapeFlipped
  | PortraitFlipped
deriving DecidableEq, Repr

/-- Embeds `Orientation::to_rotation` (src/src/types.rs lines 200-204): the
DISPLAYCONFIG_ROTATION discriminant. -/
def Orientation.to_rotation : Orientation → Nat
  | .Landscape => 1
  | .Portrait => 2
  | .LandscapeFlipped => 3
  | .PortraitFlipped => 4

/-- Embeds `Orientation::from_rotation` (src/src/types.rs lines 189-198). -/
def Orientation.from_rotation (rotation : Nat) : Orientation :=
  match rotation with
  | 1 => .Landscape
  | 2 => .Portrait
  | 3 => .LandscapeFlipped
  | 4 => .PortraitFlipped
  | _ => .Landscape

/-- Embeds `impl fmt::Display for Orientation` (src/src/types.rs lines 206-215). -/
def Orientation.fmtDisplay : Orientation → List Char
  | .Landscape => "landscape".data
  | .Portrait => "portrait".data
  | .LandscapeFlipped => "landscape_flipped".data
  | .PortraitFlipped => "portrait_flipped".data

/-- Error of `Orientation::from_str` (src/src/types.rs lines 217-221). -/
inductive ParseOrientationError
  | unknownOrientation (s : List Char)
deriving DecidableEq, Repr

/-- Embeds `impl FromStr for Orientation` (src/src/types.rs lines 223-235):
lowercase the input (ASCII suffices for all accepted keywords), then match
the keyword and numeric aliases. -/
def Orientation.from_str (s : List Char) : Except ParseOrientationError Orientation :=
  let t := s.map Char.toLower
  if t = "landscape".data ∨ t = "0".data ∨ t = "1".data then .ok .Landscape
  else if t = "portrait".data ∨ t = "90".data ∨ t = "2".data then .ok .Portrait
  else if t = "landscape_flipped".data ∨ t = "180".data ∨ t = "3".data then
    .ok .LandscapeFlipped
  else if t = "portrait_flipped".data ∨ t = "270".data ∨ t = "4".data then
    .ok .PortraitFlipped
  else .error (.unknownOrientation s)

end Types

/-! ### The display data model (src/src/properties.rs, src/src/display.rs)

`Cell`/`RefCell` interior mutability is modelled by plain fields plus explicit
state passing.  Rust's panicking index `self.displays[index]` is modelled with
`List.getD _ default`; every theorem about it carries the in-bounds hypothesis
that the `Display` view type guarantees in the source.
-/

namespace Props

/-- Embeds `Orientation` of src/src/properties.rs lines 397-404 (a distinct enum from
the types.rs one; its Display/FromStr strings are Default/UpsideDown/Right/Left). -/
inductive Orientation
  | Landscape
  | LandscapeFlipped
  | Portrait
  | PortraitFlipped
deriving DecidableEq, Repr

/-- Rotation discriminant used by `DisplaySet::apply` via `to_rotation`
(src/src/types.rs lines 200-204; the settings-struct variant that carries a
types.rs orientation is not present under src/, so the conversion is keyed by
constructor name). -/
def Orientation.to_rotation : Orientation → Nat
  | .Landscape => 1
  | .Portrait => 2
  | .LandscapeFlipped => 3
  | .PortraitFlipped => 4

/-- Embeds `FixedOutput` of src/src/properties.rs lines 463-469. -/
inductive FixedOutput
  | Default
  | Stretch
  | Center
deriving DecidableEq, Repr

end Props

/-- Embeds `DisplaySettings` (src/src/properties.rs lines 63-71). -/

structure DisplaySettings where
  position : Position
  resolution : Resolution
  orientation : Props.Orientation
  fixed_output : Props.FixedOutput
  frequency : Frequency
deriving DecidableEq, Repr

instance : Inhabited DisplaySettings :=
  ⟨⟨⟨0, 0⟩, ⟨0, 0⟩, .Landscape, .Default, ⟨0⟩⟩⟩

/-- Embeds `DisplayPropertiesError` (src/src/properties.rs lines 18-31). -/

inductive DisplayPropertiesError
  | noSettings (name : String)
  | winAPI (msg : String)
  | applyFailed (code : Int)
  | invalidOrientation (s : String)
  | invalidFixedOutput (s : String)
deriving DecidableEq, Repr

/-- Embeds `DisplayError` (src/src/display.rs lines 17-30; the
platforms/windows/display.rs variant differs only in the payload types of the
WinAPI and FailedToCommit variants). -/

inductive DisplayError
  | properties (e : DisplayPropertiesError)
  | winAPI (msg : String)
  | primaryDisplay
  | noSettings (name : String)
  | failedToCommit (code : Int)
deriving DecidableEq, Repr

/-- Embeds `DisplayProperties` (src/src/properties.rs lines 36-47).  `primary` is a
`Cell<bool>` and `settings` an `Option<RefCell<DisplaySettings>>` in the
source; both collapse to plain fields under explicit state passing. -/

structure DisplayProperties where
  name : String
  string : String
  key : String
  active : Bool
  primary : Bool
  settings : Option DisplaySettings
deriving DecidableEq, Repr

instance : Inhabited DisplayProperties := ⟨⟨"", "", "", false, false, none⟩⟩

/-- Embeds `DISPLAYCONFIG_PATH_INFO`, restricted to the fields read or written by
src/src/display.rs: the resolved source device name (the result of
`get_source_device_name`), the two mode-array indices, and the rotation slot
written by `update_path_info`.  (The scaling slot written alongside rotation
belongs to a settings field absent from the in-repo settings struct and is
dropped here; no claim inspects it.) -/

structure PathInfo where
  sourceDeviceName : Option String
  sourceModeInfoIdx : Nat
  targetModeInfoIdx : Nat
  rotation : Nat
deriving DecidableEq, Repr

instance : Inhabited PathInfo := ⟨⟨none, 0, 0, 0⟩⟩

/-- Embeds `DISPLAYCONFIG_MODE_INFO`, restricted to the fields written by
src/src/display.rs.  The Windows struct is a union of a source mode and a
target mode; the embedding keeps both field groups side by side, which is
adequate because no claim reads a mode entry back. -/

structure ModeInfo where
  position : Position
  width : Nat
  height : Nat
  vSyncNumerator : Nat
  vSyncDenominator : Nat
deriving DecidableEq, Repr

instance : Inhabited ModeInfo := ⟨⟨⟨0, 0⟩, 0, 0, 0, 0⟩⟩

/-- Embeds `DisplaySet` (src/src/display.rs lines 86-97): displays, the primary-index
pointer (`Cell<usize>`), and the raw path/mode arrays for the topology-graph
commit.  The platforms/windows/display.rs legacy variant has only the first
two fields; the legacy operations below ignore `paths`/`modes`. -/

structure DisplaySet where
  displays : List DisplayProperties
  primary_display : Nat
  paths : List PathInfo
  modes : List ModeInfo
deriving DecidableEq, Repr

/-- Embeds `Display::is_primary` (src/src/display.rs lines 77-79): the view with
index `index` reports primary iff the set's pointer equals its index. -/

def DisplaySet.is_primary (s : DisplaySet) (index : Nat) : Bool :=
  s.primary_display == index

/-- The loop of `DisplaySet::set_primary` over `self.displays.iter().enumerate()`
(src/src/display.rs lines 156-167): every active display other than the target
is translated by `-old_position` and has its primary flag cleared; the first
such display without settings aborts the loop with `NoSettings`, leaving the
displays from that point on untouched (the earlier ones are already mutated). -/

def setPrimaryLoop (old_position : Position) (index : Nat) :
    List DisplayProperties → Nat → List DisplayProperties × Option DisplayError
  | [], _ => ([], none)
  | d :: rest, i =>
    if d.active = true ∧ i ≠ index then
      match d.settings with
      | none => (d :: rest, some (.noSettings d.name))
      | some st =>
        let d' : DisplayProperties :=
          { d with settings := some { st with position := -old_position + st.position },
                   primary := false }
        let r := setPrimaryLoop old_position index rest (i + 1)
        (d' :: r.1, r.2)
    else
      let r := setPrimaryLoop old_position index rest (i + 1)
      (d :: r.1, r.2)

/-- Embeds `DisplaySet::set_primary` (src/src/display.rs lines 140-183).  Returns the
set as mutated when the method returns, together with its Result.  (The
platforms/windows/display.rs lines 116-155 variant is identical except that it
never writes the per-display `primary` flags.) -/

def DisplaySet.set_primary (s : DisplaySet) (index : Nat) :
    DisplaySet × Except DisplayError Unit :=
  let new_primary := s.displays.getD index default
  if new_primary.active = false then
    (s, .error .primaryDisplay)
  else
    match new_primary.settings with
    | none => (s, .error (.noSettings new_primary.name))
    | some st =>
      let old_position := st.position
      let r := setPrimaryLoop old_position index s.displays 0
      match r.2 with
      | some e => ({ s with displays := r.1 }, .error e)
      | none =>
        let new_primary_mut := r.1.getD index default
        match new_primary_mut.settings with
        | none => ({ s with displays := r.1 }, .error (.noSettings new_primary_mut.name))
        | some st₂ =>
          let d' : DisplayProperties :=
            { new_primary_mut with
                settings := some { st₂ with position := Position.new 0 0 },
                primary := true }
          ({ s with displays := r.1.set index d', primary_display := index }, .ok ())

/-- Position of the display at an index (None when settings are absent). -/

def DisplaySet.positionAt (s : DisplaySet) (i : Nat) : Option Position :=
  (s.displays.getD i default).settings.map fun st => st.position

/-! ### Apply/commit pipeline

The legacy backend issues one `ChangeDisplaySettingsExW` per active display;
the topology-graph backend folds all staged settings into the path/mode arrays
and issues a single `SetDisplayConfig`.  Platform return codes are supplied as
oracle parameters (`ret` per device name, `commitResult` for the single
commit); the commit calls actually issued are collected in order as the trace
of the run.
-/

/-- One `ChangeDisplaySettingsExW` call as issued by `DisplayProperties::apply`
(src/src/properties.rs lines 147-194): the device name, the DEVMODE built by
`from_display_settings` (carrying exactly the five staged settings fields),
and the CDS flag word. -/

structure CommitCall where
  deviceName : String
  devmode : DisplaySettings
  flags : Nat
deriving DecidableEq, Repr

/-- Embeds `DisplayProperties::apply` (src/src/properties.rs lines 147-194): fails
with `NoSettings` before any platform call when settings are absent; otherwise
issues one commit with flags CDS_UPDATEREGISTRY|CDS_NORESET|CDS_GLOBAL
(1|4|8), plus CDS_SET_PRIMARY (2) when the display's primary flag is set.
`ret` is the platform's status code for the call (0 = DISP_CHANGE_SUCCESSFUL). -/

def DisplayProperties.apply (ret : String → Int) (d : DisplayProperties) :
    List CommitCall × Except DisplayPropertiesError Unit :=
  match d.settings with
  | none => ([], .error (.noSettings d.name))
  | some st =>
    let flags : Nat := 1 ||| 4 ||| 8
    let flags := if d.primary = true then flags ||| 2 else flags
    let call : CommitCall := ⟨d.name, st, flags⟩
    if ret d.name = 0 then ([call], .ok ())
    else ([call], .error (.applyFailed (ret d.name)))

/-- The commit call `DisplayProperties::apply` issues for a display that has
settings (first component of `DisplayProperties.apply`). -/

def commitCallOf (d : DisplayProperties) : CommitCall :=
  { deviceName := d.name,
    devmode := d.settings.getD default,
    flags := if d.primary = true then (1 ||| 4 ||| 8) ||| 2 else 1 ||| 4 ||| 8 }

namespace Legacy

/-- Loop of the legacy `DisplaySet::apply`
(src/src/platforms/windows/display.rs lines 157-167): iterate the displays in
index order and commit each active one; `?` aborts at the first error, with
the calls already issued kept in the trace. -/
def applyLoop (ret : String → Int) :
    List DisplayProperties → List CommitCall × Except DisplayError Unit
  | [] => ([], .ok ())
  | d :: rest =>
    if d.active = true then
      let r := DisplayProperties.apply ret d
      match r.2 with
      | .error e => (r.1, .error (.properties e))
      | .ok _ =>
        let rr := applyLoop ret rest
        (r.1 ++ rr.1, rr.2)
    else applyLoop ret rest

/-- Legacy `DisplaySet::apply` (src/src/platforms/windows/display.rs lines
157-167), returning the ordered trace of commit calls and the Result. -/
def DisplaySet.apply (ret : String → Int) (s : DisplaySet) :
    List CommitCall × Except DisplayError Unit :=
  applyLoop ret s.displays

end Legacy

/-- CDS_SET_PRIMARY is bit 2 of a legacy commit's flag word. -/

def hasPrimaryFlag (c : CommitCall) : Bool := c.flags &&& 2 != 0

/-- The ordering property claimed for a legacy apply batch: every commit call
carrying CDS_SET_PRIMARY is issued before every commit call not carrying it. -/

def primaryCommitFirst (calls : List CommitCall) : Prop :=
  ∀ i j : Fin calls.length, hasPrimaryFlag (calls.get i) = true →
    hasPrimaryFlag (calls.get j) = false → i.val < j.val

instance (calls : List CommitCall) : Decidable (primaryCommitFirst calls) := by
  unfold primaryCommitFirst
  infer_instance

/-- Embeds `DisplaySet::find_path_for_display` (src/src/display.rs lines 214-223). -/

def DisplaySet.find_path_for_display (paths : List PathInfo) (display_name : String) :
    Option Nat :=
  paths.findIdx? fun p => ((p.sourceDeviceName).map fun n => n == display_name).getD false

/-- Embeds `DisplaySet::update_source_mode` (src/src/display.rs lines 225-240):
no-op when the index is out of range. -/

def DisplaySet.update_source_mode (modes : List ModeInfo) (idx : Nat)
    (settings : DisplaySettings) : List ModeInfo :=
  if idx ≥ modes.length then modes
  else
    modes.set idx
      { modes.getD idx default with
          position := settings.position,
          width := settings.resolution.width,
          height := settings.resolution.height }

/-- Embeds `DisplaySet::update_target_mode` (src/src/display.rs lines 242-260):
write the staged frequency into the vsync numerator, denominator fixed at 1. -/

def DisplaySet.update_target_mode (modes : List ModeInfo) (idx : Nat)
    (settings : DisplaySettings) : List ModeInfo :=
  if idx ≥ modes.length then modes
  else
    modes.set idx
      { modes.getD idx default with
          vSyncNumerator := settings.frequency.val,
          vSyncDenominator := 1 }

/-- Embeds `DisplaySet::update_path_info` (src/src/display.rs lines 262-268). -/

def DisplaySet.update_path_info (path : PathInfo) (settings : DisplaySettings) : PathInfo :=
  { path with rotation := settings.orientation.to_rotation }

/-- The fold of the topology-graph `DisplaySet::apply` (src/src/display.rs
lines 194-209) over the active displays: a display whose name matches no path
is skipped (`continue`), and a display without settings is silently skipped by
the `if let`. -/

def DisplaySet.applyFold :
    List DisplayProperties → List PathInfo → List ModeInfo → List PathInfo × List ModeInfo
  | [], paths, modes => (paths, modes)
  | d :: rest, paths, modes =>
    if d.active = true then
      match DisplaySet.find_path_for_display paths d.name with
      | none => DisplaySet.applyFold rest paths modes
      | some path_idx =>
        let path := paths.getD path_idx default
        match d.settings with
        | some st =>
          let modes₁ := DisplaySet.update_source_mode modes path.sourceModeInfoIdx st
          let modes₂ := DisplaySet.update_target_mode modes₁ path.targetModeInfoIdx st
          let paths₁ := paths.set path_idx (DisplaySet.update_path_info path st)
          DisplaySet.applyFold rest paths₁ modes₂
        | none => DisplaySet.applyFold rest paths modes
    else DisplaySet.applyFold rest paths modes

/-- Topology-graph `DisplaySet::apply` (src/src/display.rs lines 190-212):
fold every active display into the path/mode arrays, then issue exactly one
`SetDisplayConfig` over them; `commitResult` is that call's status code
(0 = success, anything else surfaces as `FailedToCommit`). -/

def DisplaySet.apply (s : DisplaySet) (commitResult : Int) :
    DisplaySet × Except DisplayError Unit :=
  let r := DisplaySet.applyFold s.displays s.paths s.modes
  let s' := { s with paths := r.1, modes := r.2 }
  if commitResult = 0 then (s', .ok ())
  else (s', .error (.failedToCommit commitResult))

/-! ### Enumeration (src/src/properties.rs `from_windows`) and mutation ops -/

/-- The fields of a `DISPLAY_DEVICEW` record consumed by `from_windows`,
after the wide-string conversions (which are abstracted away). -/

structure DISPLAY_DEVICE where
  deviceName : String
  deviceString : String
  deviceKey : String
  stateFlags : Nat
deriving DecidableEq, Repr

/-- Embeds `DisplayProperties::from_windows` (src/src/properties.rs lines 73-110).
`fetch` is the outcome of the `fetch_settings` platform query for this device
name; it is consulted (and its error propagated) only when the device is
active (bit 1, DISPLAY_DEVICE_ATTACHED_TO_DESKTOP).  Primary is bit 4
(DISPLAY_DEVICE_PRIMARY_DEVICE). -/

def DisplayProperties.from_windows (device : DISPLAY_DEVICE)
    (fetch : Except DisplayPropertiesError DisplaySettings) :
    Except DisplayPropertiesError DisplayProperties :=
  let active : Bool := (device.stateFlags &&& 1) != 0
  let settingsE : Except DisplayPropertiesError (Option DisplaySettings) :=
    if active then fetch.map some else .ok none
  settingsE.map fun settings =>
    { name := device.deviceName,
      string := device.deviceString,
      key := device.deviceKey,
      active := active,
      primary := (device.stateFlags &&& 4) != 0,
      settings := settings }

/-- In-place update of one list element (mutation through an aliased
`RefCell` view). -/

def modifyAt (f : DisplayProperties → DisplayProperties) :
    List DisplayProperties → Nat → List DisplayProperties
  | [], _ => []
  | d :: rest, 0 => f d :: rest
  | d :: rest, i + 1 => d :: modifyAt f rest i

/-- One staging operation on a display set: a primary reassignment, or a
settings-field mutation through a display view's `settings()` handle
(`settings.borrow_mut().field = v`, modelled as an arbitrary update of the
present settings value — the handle cannot change whether settings exist). -/

inductive SetOp
  | set_primary (index : Nat)
  | mutateSettings (index : Nat) (f : DisplaySettings → DisplaySettings)

/-- Run one staging operation; a failed `set_primary` leaves the state it
mutated so far, exactly as the source does. -/

def applyOp (s : DisplaySet) : SetOp → DisplaySet
  | .set_primary index => (s.set_primary index).1
  | .mutateSettings index f =>
    { s with displays := modifyAt (fun d => { d with settings := d.settings.map f }) s.displays index }

/-- Run a sequence of staging operations. -/

def runOps : List SetOp → DisplaySet → DisplaySet
  | [], s => s
  | op :: ops, s => runOps ops (applyOp s op)

/-- The settings-presence invariant: a display carries a Settings value iff it
is active. -/

def settingsIffActive (s : DisplaySet) : Prop :=
  ∀ d ∈ s.displays, d.settings.isSome = d.active

instance (s : DisplaySet) : Decidable (settingsIffActive s) := by
  unfold settingsIffActive
  infer_instance

/-- The update `set_primary` performs on an active non-target display with
settings: translate the position by the negated origin and clear the primary
flag (src/src/display.rs lines 162-165). -/

def translated (origin : Position) (d : DisplayProperties) : DisplayProperties :=
  match d.settings with
  | none => d
  | some st =>
    { d with settings := some { st with position := -origin + st.position }, primary := false }

/-- Settings fixture for concrete witnesses. -/

def mkSettings (p : Position) : DisplaySettings :=
  { position := p, resolution := ⟨1920, 1080⟩, orientation := .Landscape,
    fixed_output := .Default, frequency := ⟨60⟩ }

/-- Display fixture for concrete witnesses. -/

def mkDisplay (name : String) (active primary : Bool)
    (settings : Option DisplaySettings) : DisplayProperties :=
  { name := name, string := "", key := "", active := active, primary := primary,
    settings := settings }

/-- Fixture for C7: display 1 is not active. -/

def exSetC7 : DisplaySet :=
  ⟨[mkDisplay "A" true true (some (mkSettings (Position.new 0 0))),
    mkDisplay "B" false false none], 0, [], []⟩

/-- Fixture for C2/C10: two active displays, target already at the origin. -/

def exSetC2 : DisplaySet :=
  ⟨[mkDisplay "A" true true (some (mkSettings (Position.new 0 0))),
    mkDisplay "B" true false (some (mkSettings (Position.new 1920 0)))], 0, [], []⟩

/-- Fixture for C3: display A at (0,0), display B at (1920,0). -/

def exSetC3 : DisplaySet :=
  ⟨[mkDisplay "A" true true (some (mkSettings (Position.new 0 0))),
    mkDisplay "B" true false (some (mkSettings (Position.new 1920 0)))], 0, [], []⟩

/-- Fixture for C1: three active displays; display 1 lacks settings. -/

def exSetC1 : DisplaySet :=
  ⟨[mkDisplay "A" true true (some (mkSettings (Position.new 100 0))),
    mkDisplay "B" true false none,
    mkDisplay "C" true false (some (mkSettings (Position.new 7 0)))], 0, [], []⟩

/-- Fixture for the C4 counterexample: display A at (5,0), B at (7,0). -/

def exSetC4 : DisplaySet :=
  ⟨[mkDisplay "A" true true (some (mkSettings (Position.new 5 0))),
    mkDisplay "B" true false (some (mkSettings (Position.new 7 0)))], 0, [], []⟩

instance : Inhabited CommitCall := ⟨⟨"", default, 0⟩⟩

/-- Fixture for C6: a non-primary active display at index 0, the primary
(flag set) active display at index 1. -/

def exSetC6 : DisplaySet :=
  ⟨[mkDisplay "A" true false (some (mkSettings (Position.new 1920 0))),
    mkDisplay "B" true true (some (mkSettings (Position.new 0 0)))], 1, [], []⟩

/-- A platform oracle under which every legacy commit succeeds. -/

def retOk : String → Int := fun _ => 0

/-- Fixture for C9: a single active display without settings, with a matching
path entry. -/

def exSetC9 : DisplaySet :=
  ⟨[mkDisplay "A" true false none], 0, [⟨some "A", 0, 0, 0⟩], [default]⟩

/-- Device fixture for the C8 witness: state flags 5 = attached (1) + primary (4). -/

def exDevice : DISPLAY_DEVICE := ⟨"A", "Monitor A", "key-a", 5⟩

/-- Enumeration result fixture for the C8 witness. -/

def exProps : DisplayProperties :=
  { name := "A", string := "Monitor A", key := "key-a", active := true, primary := true,
    settings := some (mkSettings (Position.new 0 0)) }

/-- Operation-sequence fixture for the C8 witness: a reassignment followed by
a settings mutation through the staging handle. -/

def exOps : List SetOp :=
  [SetOp.set_primary 1, SetOp.mutateSettings 0 (fun st => { st with frequency := ⟨75⟩ })]

theorem Position.add_def (p q : Position) : p + q = ⟨p.x + q.x, p.y + q.y⟩ := rfl

theorem Position.neg_def (p : Position) : -p = ⟨-p.x, -p.y⟩ := rfl

theorem Position.sub_def (p q : Position) : p - q = ⟨p.x - q.x, p.y - q.y⟩ := rfl

theorem Position.neg_zero_add (p : Position) : -Position.new 0 0 + p = p := by
  cases p
  simp only [Position.new, Position.add_def, Position.neg_def, Position.mk.injEq]
  omega

theorem Position.neg_add_cancel_left (p q : Position) : - -p + (-p + q) = q := by
  cases p; cases q
  simp only [Position.add_def, Position.neg_def, Position.mk.injEq]
  omega

theorem Position.neg_neg_add_zero (p : Position) : - -p + Position.new 0 0 = p := by
  cases p
  simp only [Position.new, Position.add_def, Position.neg_def, Position.mk.injEq]
  omega

theorem Position.neg_add_eq_sub (p q : Position) : -p + q = q - p := by
  cases p; cases q
  simp only [Position.add_def, Position.neg_def, Position.sub_def, Position.mk.injEq]
  omega

theorem charToDigit_digitChar {d : Nat} (h : d < 10) : charToDigit (digitChar d) = some d := by
  interval_cases d <;> decide

theorem digitChar_isDigit {d : Nat} (h : d < 10) :
    48 ≤ (digitChar d).toNat ∧ (digitChar d).toNat ≤ 57 := by
  interval_cases d <;> decide

theorem parseDigitsAux_append (l₁ l₂ : List Char) (acc : Nat) :
    parseDigitsAux (l₁ ++ l₂) acc =
      match parseDigitsAux l₁ acc with
      | none => none
      | some v => parseDigitsAux l₂ v := by
  induction l₁ generalizing acc with
  | nil => simp [parseDigitsAux]
  | cons c rest ih =>
    simp only [List.cons_append, parseDigitsAux]
    cases charToDigit c with
    | none => rfl
    | some d => exact ih (acc * 10 + d)

theorem natToCharsAux_ne_nil {fuel n : Nat} (h : n < fuel) : natToCharsAux fuel n ≠ [] := by
  cases fuel with
  | zero => omega
  | succ fuel =>
    unfold natToCharsAux
    split
    · simp
    · simp

theorem natToCharsAux_digits {fuel n : Nat} (h : n < fuel) :
    ∀ c ∈ natToCharsAux fuel n, 48 ≤ c.toNat ∧ c.toNat ≤ 57 := by
  induction fuel generalizing n with
  | zero => omega
  | succ fuel ih =>
    unfold natToCharsAux
    split
    · intro c hc
      simp only [List.mem_singleton] at hc
      subst hc
      exact digitChar_isDigit (by omega)
    · intro c hc
      rename_i hge
      simp only [List.mem_append, List.mem_singleton] at hc
      rcases hc with hc | hc
      · exact ih (by omega : n / 10 < fuel) c hc
      · subst hc
        exact digitChar_isDigit (Nat.mod_lt _ (by omega))

theorem parseDigitsAux_natToCharsAux {fuel n : Nat} (h : n < fuel) (acc : Nat) :
    parseDigitsAux (natToCharsAux fuel n) acc =
      some (acc * 10 ^ (natToCharsAux fuel n).length + n) := by
  induction fuel generalizing n acc with
  | zero => omega
  | succ fuel ih =>
    unfold natToCharsAux
    split
    · rename_i hlt
      simp [parseDigitsAux, charToDigit_digitChar hlt]
    · rename_i hge
      have hdiv : n / 10 < fuel := by omega
      rw [parseDigitsAux_append, ih hdiv acc]
      have hm : n % 10 < 10 := Nat.mod_lt _ (by omega)
      simp only [parseDigitsAux, charToDigit_digitChar hm, List.length_append,
        List.length_singleton]
      congr 1
      have := Nat.div_add_mod n 10
      ring_nf
      omega

theorem natToChars_head_digit (n : Nat) :
    ∀ c ∈ natToChars n, 48 ≤ c.toNat ∧ c.toNat ≤ 57 :=
  natToCharsAux_digits (Nat.lt_succ_self n)

theorem natToChars_ne_nil (n : Nat) : natToChars n ≠ [] :=
  natToCharsAux_ne_nil (Nat.lt_succ_self n)

theorem parseDigits_of_ne_nil {l : List Char} (h : l ≠ []) :
    parseDigits l = parseDigitsAux l 0 := by
  cases l with
  | nil => exact absurd rfl h
  | cons c rest => rfl

theorem parseDigits_natToChars (n : Nat) : parseDigits (natToChars n) = some n := by
  rw [parseDigits_of_ne_nil (natToChars_ne_nil n)]
  unfold natToChars
  rw [parseDigitsAux_natToCharsAux (Nat.lt_succ_self n) 0]
  simp

theorem parseU32_natToChars {n : Nat} (h : n < 2 ^ 32) : parseU32 (natToChars n) = some n := by
  cases hl : natToChars n with
  | nil => exact absurd hl (natToChars_ne_nil n)
  | cons c rest =>
    have hc : 48 ≤ c.toNat ∧ c.toNat ≤ 57 := by
      apply natToChars_head_digit n; rw [hl]; exact List.mem_cons_self c rest
    have hplus : c ≠ '+' := fun hcp => by rw [hcp] at hc; revert hc; decide
    have hminus : c ≠ '-' := fun hcp => by rw [hcp] at hc; revert hc; decide
    have hpd : parseDigits (c :: rest) = some n := by
      rw [← hl]; exact parseDigits_natToChars n
    simp only [parseU32, if_neg hplus, if_neg hminus, hpd, Option.some_bind, if_pos h]

theorem parseI32_intToChars {i : Int} (hlo : -(2 ^ 31) ≤ i) (hhi : i ≤ 2 ^ 31 - 1) :
    parseI32 (intToChars i) = some i := by
  unfold intToChars
  by_cases hneg : i < 0
  · rw [if_pos hneg]
    have hr : i.natAbs ≤ 2 ^ 31 := by omega
    have hstep : parseI32 ('-' :: natToChars i.natAbs)
        = (parseDigits (natToChars i.natAbs)).bind
            fun v => if v ≤ 2 ^ 31 then some (-(v : Int)) else none := rfl
    rw [hstep, parseDigits_natToChars i.natAbs, Option.some_bind, if_pos hr]
    congr 1
    omega
  · rw [if_neg hneg]
    have hr : i.natAbs ≤ 2 ^ 31 - 1 := by omega
    cases hl : natToChars i.natAbs with
    | nil => exact absurd hl (natToChars_ne_nil _)
    | cons c rest =>
      have hc : 48 ≤ c.toNat ∧ c.toNat ≤ 57 := by
        apply natToChars_head_digit i.natAbs; rw [hl]; exact List.mem_cons_self c rest
      have hplus : c ≠ '+' := fun hcp => by rw [hcp] at hc; revert hc; decide
      have hminus : c ≠ '-' := fun hcp => by rw [hcp] at hc; revert hc; decide
      have hpd : parseDigits (c :: rest) = some i.natAbs := by
        rw [← hl]; exact parseDigits_natToChars i.natAbs
      simp only [parseI32, if_neg hplus, if_neg hminus, hpd, Option.some_bind, if_pos hr]
      congr 1
      omega

theorem splitOnChar_cons (sep c : Char) (rest : List Char) :
    splitOnChar sep (c :: rest) =
      match splitOnChar sep rest with
      | [] => [[]]
      | part :: parts => if c = sep then [] :: part :: parts else (c :: part) :: parts := rfl

theorem splitOnChar_ne_nil (sep : Char) (l : List Char) : splitOnChar sep l ≠ [] := by
  cases l with
  | nil => simp [splitOnChar]
  | cons c rest =>
    rw [splitOnChar_cons]
    cases h : splitOnChar sep rest with
    | nil => simp
    | cons part parts =>
      dsimp only
      split <;> simp

theorem splitOnChar_not_mem {sep : Char} {l : List Char} (h : sep ∉ l) :
    splitOnChar sep l = [l] := by
  induction l with
  | nil => rfl
  | cons c rest ih =>
    have hcs : c ≠ sep := fun hc => h (hc ▸ List.mem_cons_self c rest)
    have hr : sep ∉ rest := fun hm => h (List.mem_cons_of_mem c hm)
    rw [splitOnChar_cons, ih hr]
    dsimp only
    rw [if_neg hcs]

theorem splitOnChar_append {sep : Char} {l₁ : List Char} (h : sep ∉ l₁) (l₂ : List Char) :
    splitOnChar sep (l₁ ++ sep :: l₂) = l₁ :: splitOnChar sep l₂ := by
  induction l₁ with
  | nil =>
    show splitOnChar sep (sep :: l₂) = [] :: splitOnChar sep l₂
    rw [splitOnChar_cons]
    cases hs : splitOnChar sep l₂ with
    | nil => exact absurd hs (splitOnChar_ne_nil sep l₂)
    | cons part parts =>
      dsimp only
      rw [if_pos rfl]
  | cons c rest ih =>
    have hcs : c ≠ sep := fun hc => h (hc ▸ List.mem_cons_self c rest)
    have hr : sep ∉ rest := fun hm => h (List.mem_cons_of_mem c hm)
    show splitOnChar sep (c :: (rest ++ sep :: l₂)) = (c :: rest) :: splitOnChar sep l₂
    rw [splitOnChar_cons, ih hr]
    dsimp only
    rw [if_neg hcs]

theorem char_not_mem_natToChars {c : Char} (h : 57 < c.toNat ∨ c.toNat < 48) (n : Nat) :
    c ∉ natToChars n := fun hm => by
  have := natToChars_head_digit n c hm
  omega

theorem parseDigits_not_digit {c : Char} (h : charToDigit c = none) (l : List Char) :
    parseDigits (c :: l) = none := by
  show parseDigitsAux (c :: l) 0 = none
  simp only [parseDigitsAux, h]

theorem getD_set_eq (l : List DisplayProperties) (i : Nat) (a d : DisplayProperties)
    (h : i < l.length) : (l.set i a).getD i d = a := by
  simp [List.getD_eq_getElem?_getD, List.getElem?_set_self, h]

theorem getD_set_ne (l : List DisplayProperties) {i j : Nat} (a d : DisplayProperties)
    (h : i ≠ j) : (l.set i a).getD j d = l.getD j d := by
  simp [List.getD_eq_getElem?_getD, List.getElem?_set_ne h]

theorem list_ext_getD {l₁ l₂ : List DisplayProperties} (hlen : l₁.length = l₂.length)
    (h : ∀ j, l₁.getD j default = l₂.getD j default) : l₁ = l₂ := by
  apply List.ext_getElem hlen
  intro i h1 h2
  have := h i
  rwa [List.getD_eq_getElem l₁ default h1, List.getD_eq_getElem l₂ default h2] at this

theorem DisplaySet.ext' {s₁ s₂ : DisplaySet} (h1 : s₁.displays = s₂.displays)
    (h2 : s₁.primary_display = s₂.primary_display) (h3 : s₁.paths = s₂.paths)
    (h4 : s₁.modes = s₂.modes) : s₁ = s₂ := by
  cases s₁; cases s₂
  simp_all

theorem translated_fields (origin : Position) (d : DisplayProperties) :
    (translated origin d).name = d.name ∧ (translated origin d).active = d.active ∧
    (translated origin d).settings.isSome = d.settings.isSome := by
  cases hset : d.settings <;> simp [translated, hset]

theorem setPrimaryLoop_length (o : Position) (index : Nat) :
    ∀ (ds : List DisplayProperties) (i : Nat),
      (setPrimaryLoop o index ds i).1.length = ds.length := by
  intro ds
  induction ds with
  | nil => intro i; rfl
  | cons d rest ih =>
    intro i
    unfold setPrimaryLoop
    split
    · cases hset : d.settings with
      | none => simp
      | some st => simpa using ih (i + 1)
    · simpa using ih (i + 1)

theorem setPrimaryLoop_preserves (o : Position) (index : Nat) :
    ∀ (ds : List DisplayProperties) (i j : Nat),
      ((setPrimaryLoop o index ds i).1.getD j default).name = (ds.getD j default).name ∧
      ((setPrimaryLoop o index ds i).1.getD j default).active = (ds.getD j default).active ∧
      ((setPrimaryLoop o index ds i).1.getD j default).settings.isSome
        = (ds.getD j default).settings.isSome := by
  intro ds
  induction ds with
  | nil => intro i j; simp [setPrimaryLoop]
  | cons d rest ih =>
    intro i j
    unfold setPrimaryLoop
    split
    · cases hset : d.settings with
      | none => simp
      | some st =>
        cases j with
        | zero => simp [hset]
        | succ j => simpa using ih (i + 1) j
    · cases j with
      | zero => simp
      | succ j => simpa using ih (i + 1) j

theorem setPrimaryLoop_cons (o : Position) (index : Nat) (d : DisplayProperties)
    (rest : List DisplayProperties) (i : Nat) :
    setPrimaryLoop o index (d :: rest) i =
      if d.active = true ∧ i ≠ index then
        match d.settings with
        | none => (d :: rest, some (.noSettings d.name))
        | some st =>
          (DisplayProperties.mk d.name d.string d.key d.active false
              (some (DisplaySettings.mk (-o + st.position) st.resolution st.orientation
                st.fixed_output st.frequency)) :: (setPrimaryLoop o index rest (i + 1)).1,
            (setPrimaryLoop o index rest (i + 1)).2)
      else
        (d :: (setPrimaryLoop o index rest (i + 1)).1,
          (setPrimaryLoop o index rest (i + 1)).2) := rfl

theorem setPrimaryLoop_ok (o : Position) (index : Nat) :
    ∀ (ds : List DisplayProperties) (i : Nat),
      (∀ j, j < ds.length → (ds.getD j default).active = true → i + j ≠ index →
        (ds.getD j default).settings.isSome = true) →
      (setPrimaryLoop o index ds i).2 = none := by
  intro ds
  induction ds with
  | nil => intro i _; rfl
  | cons d rest ih =>
    intro i h
    have hrest : ∀ j, j < rest.length → (rest.getD j default).active = true →
        (i + 1) + j ≠ index → (rest.getD j default).settings.isSome = true := by
      intro j hj hact hij
      have := h (j + 1) (by simpa using hj) (by simpa using hact) (by omega)
      simpa using this
    rw [setPrimaryLoop_cons]
    by_cases hcond : d.active = true ∧ i ≠ index
    · rw [if_pos hcond]
      have hsome : d.settings.isSome = true := by
        have := h 0 (by simp) (by simpa using hcond.1) (by omega)
        simpa using this
      obtain ⟨st, hst⟩ := Option.isSome_iff_exists.mp hsome
      rw [hst]
      exact ih (i + 1) hrest
    · rw [if_neg hcond]
      exact ih (i + 1) hrest

theorem setPrimaryLoop_ok_char (o : Position) (index : Nat) :
    ∀ (ds : List DisplayProperties) (i : Nat),
      (setPrimaryLoop o index ds i).2 = none →
      ∀ j, (setPrimaryLoop o index ds i).1.getD j default =
        if (ds.getD j default).active = true ∧ i + j ≠ index then
          translated o (ds.getD j default)
        else ds.getD j default := by
  intro ds
  induction ds with
  | nil =>
    intro i _ j
    rw [show (setPrimaryLoop o index [] i).1 = [] from rfl, List.getD_nil]
    have hde : ((default : DisplayProperties)).active ≠ true := by decide
    rw [if_neg (fun hcon => hde hcon.1)]
  | cons d rest ih =>
    intro i hnone j
    rw [setPrimaryLoop_cons] at hnone ⊢
    by_cases hcond : d.active = true ∧ i ≠ index
    · rw [if_pos hcond] at hnone ⊢
      cases hst : d.settings with
      | none => rw [hst] at hnone; exact absurd hnone (by simp)
      | some st =>
        rw [hst] at hnone
        dsimp only at hnone ⊢
        have hrest := ih (i + 1) (by simpa using hnone)
        cases j with
        | zero =>
          rw [List.getD_cons_zero, List.getD_cons_zero,
            if_pos ⟨hcond.1, by omega⟩]
          simp [translated, hst]
        | succ j =>
          rw [List.getD_cons_succ, List.getD_cons_succ,
            if_congr (show ((rest.getD j default).active = true ∧ i + (j + 1) ≠ index) ↔
              ((rest.getD j default).active = true ∧ (i + 1) + j ≠ index) by
                constructor <;> (intro hx; exact ⟨hx.1, by omega⟩)) rfl rfl]
          exact hrest j
    · rw [if_neg hcond] at hnone ⊢
      have hrest := ih (i + 1) (by simpa using hnone)
      cases j with
      | zero =>
        rw [List.getD_cons_zero, List.getD_cons_zero, if_neg]
        intro hcon
        exact hcond ⟨hcon.1, by omega⟩
      | succ j =>
        rw [List.getD_cons_succ, List.getD_cons_succ,
          if_congr (show ((rest.getD j default).active = true ∧ i + (j + 1) ≠ index) ↔
            ((rest.getD j default).active = true ∧ (i + 1) + j ≠ index) by
              constructor <;> (intro hx; exact ⟨hx.1, by omega⟩)) rfl rfl]
        exact hrest j

theorem setPrimaryLoop_err (o : Position) (index : Nat) :
    ∀ (ds : List DisplayProperties) (i k : Nat),
      k < ds.length →
      (ds.getD k default).active = true →
      i + k ≠ index →
      (ds.getD k default).settings = none →
      (∀ j, j < k → (ds.getD j default).active = true → i + j ≠ index →
        (ds.getD j default).settings.isSome = true) →
      (setPrimaryLoop o index ds i).2 = some (.noSettings (ds.getD k default).name) ∧
      ∀ j, (setPrimaryLoop o index ds i).1.getD j default =
        if j < k ∧ (ds.getD j default).active = true ∧ i + j ≠ index then
          translated o (ds.getD j default)
        else ds.getD j default := by
  intro ds
  induction ds with
  | nil => intro i k hk; exact absurd hk (by simp)
  | cons d rest ih =>
    intro i k hk ha hik hs hbefore
    rw [setPrimaryLoop_cons]
    cases k with
    | zero =>
      rw [List.getD_cons_zero] at ha hs ⊢
      rw [if_pos ⟨ha, by omega⟩, hs]
      refine ⟨rfl, fun j => ?_⟩
      rw [if_neg (fun hcon => by omega)]
    | succ k =>
      rw [List.getD_cons_succ] at ha hs
      have hkr : k < rest.length := by simpa using hk
      have hikr : (i + 1) + k ≠ index := by omega
      have hbr : ∀ j, j < k → (rest.getD j default).active = true →
          (i + 1) + j ≠ index → (rest.getD j default).settings.isSome = true := by
        intro j hj hact hij
        have := hbefore (j + 1) (by omega) (by simpa using hact) (by omega)
        simpa using this
      by_cases hcond : d.active = true ∧ i ≠ index
      · have hsome : d.settings.isSome = true := by
          have := hbefore 0 (by omega) (by simpa using hcond.1) (by omega)
          simpa using this
        obtain ⟨st, hst⟩ := Option.isSome_iff_exists.mp hsome
        rw [if_pos hcond, hst]
        obtain ⟨ih1, ih2⟩ := ih (i + 1) k hkr ha hikr hs hbr
        refine ⟨by simpa using ih1, fun j => ?_⟩
        cases j with
        | zero =>
          rw [List.getD_cons_zero, List.getD_cons_zero,
            if_pos ⟨by omega, hcond.1, by omega⟩]
          simp [translated, hst]
        | succ j =>
          rw [List.getD_cons_succ, List.getD_cons_succ,
            if_congr (show (j + 1 < k + 1 ∧ (rest.getD j default).active = true ∧
                i + (j + 1) ≠ index) ↔
              (j < k ∧ (rest.getD j default).active = true ∧ (i + 1) + j ≠ index) by
                constructor <;> (intro hx; exact ⟨by omega, hx.2.1, by omega⟩)) rfl rfl]
          exact ih2 j
      · rw [if_neg hcond]
        obtain ⟨ih1, ih2⟩ := ih (i + 1) k hkr ha hikr hs hbr
        refine ⟨by simpa using ih1, fun j => ?_⟩
        cases j with
        | zero =>
          rw [List.getD_cons_zero, List.getD_cons_zero, if_neg]
          intro hcon
          exact hcond ⟨hcon.2.1, by omega⟩
        | succ j =>
          rw [List.getD_cons_succ, List.getD_cons_succ,
            if_congr (show (j + 1 < k + 1 ∧ (rest.getD j default).active = true ∧
                i + (j + 1) ≠ index) ↔
              (j < k ∧ (rest.getD j default).active = true ∧ (i + 1) + j ≠ index) by
                constructor <;> (intro hx; exact ⟨by omega, hx.2.1, by omega⟩)) rfl rfl]
          exact ih2 j

theorem set_primary_inactive (s : DisplaySet) (index : Nat)
    (ha : (s.displays.getD index default).active = false) :
    s.set_primary index = (s, .error .primaryDisplay) := by
  simp only [DisplaySet.set_primary]
  rw [if_pos ha]

theorem set_primary_succeeds (s : DisplaySet) (index : Nat)
    (hidx : index < s.displays.length)
    (ha : (s.displays.getD index default).active = true)
    (hall : ∀ j, j < s.displays.length → (s.displays.getD j default).active = true →
      (s.displays.getD j default).settings.isSome = true) :
    (s.set_primary index).2 = .ok () := by
  simp only [DisplaySet.set_primary]
  rw [if_neg (by rw [ha]; simp)]
  obtain ⟨st, hst⟩ := Option.isSome_iff_exists.mp (hall index hidx ha)
  rw [hst]
  dsimp only
  have hnone := setPrimaryLoop_ok st.position index s.displays 0
    (fun j hj hactj _ => hall j hj hactj)
  rw [hnone]
  dsimp only
  have hchar := setPrimaryLoop_ok_char st.position index s.displays 0 hnone
  have htarget : (setPrimaryLoop st.position index s.displays 0).1.getD index default
      = s.displays.getD index default := by
    have := hchar index
    rwa [if_neg (fun hcon => hcon.2 (by omega))] at this
  rw [htarget, hst]

theorem set_primary_ok_char (s : DisplaySet) (index : Nat)
    (hidx : index < s.displays.length)
    (hok : (s.set_primary index).2 = .ok ()) :
    (s.set_primary index).1.primary_display = index ∧
    (s.set_primary index).1.displays.length = s.displays.length ∧
    (s.set_primary index).1.paths = s.paths ∧
    (s.set_primary index).1.modes = s.modes ∧
    ∀ j, (s.set_primary index).1.displays.getD j default =
      if j = index then
        { s.displays.getD index default with
            settings := some { (s.displays.getD index default).settings.getD default with
              position := Position.new 0 0 },
            primary := true }
      else if (s.displays.getD j default).active = true then
        translated ((s.displays.getD index default).settings.getD default).position
          (s.displays.getD j default)
      else s.displays.getD j default := by
  simp only [DisplaySet.set_primary] at hok ⊢
  by_cases hact : (s.displays.getD index default).active = false
  · rw [if_pos hact] at hok
    exact absurd hok (by simp)
  · rw [if_neg hact] at hok ⊢
    cases hst : (s.displays.getD index default).settings with
    | none =>
      rw [hst] at hok
      exact absurd hok (by simp)
    | some st =>
      rw [hst] at hok
      dsimp only at hok ⊢
      cases hr2 : (setPrimaryLoop st.position index s.displays 0).2 with
      | some e =>
        rw [hr2] at hok
        exact absurd hok (by simp)
      | none =>
        rw [hr2] at hok
        dsimp only at hok ⊢
        have hchar := setPrimaryLoop_ok_char st.position index s.displays 0 hr2
        have hlen : (setPrimaryLoop st.position index s.displays 0).1.length
            = s.displays.length := setPrimaryLoop_length st.position index s.displays 0
        have htarget : (setPrimaryLoop st.position index s.displays 0).1.getD index default
            = s.displays.getD index default := by
          have := hchar index
          rwa [if_neg (fun hcon => hcon.2 (by omega))] at this
        rw [htarget, hst] at hok ⊢
        dsimp only at hok ⊢
        refine ⟨rfl, by simpa using hlen, rfl, rfl, fun j => ?_⟩
        by_cases hj : j = index
        · subst hj
          rw [getD_set_eq _ _ _ _ (by omega), if_pos rfl]
          simp
        · rw [getD_set_ne _ _ _ (fun hx => hj hx.symm), if_neg hj]
          have := hchar j
          by_cases hactj : (s.displays.getD j default).active = true
          · rw [if_pos ⟨hactj, by omega⟩] at this
            rw [this, if_pos hactj]
            simp
          · rw [if_neg (fun hcon => hactj hcon.1)] at this
            rw [this, if_neg hactj]

theorem set_primary_err_char (s : DisplaySet) (index k : Nat)
    (hidx : index < s.displays.length)
    (ha : (s.displays.getD index default).active = true)
    (hasome : (s.displays.getD index default).settings.isSome = true)
    (hk : k < s.displays.length)
    (hkne : k ≠ index)
    (hka : (s.displays.getD k default).active = true)
    (hks : (s.displays.getD k default).settings = none)
    (hbefore : ∀ j, j < k → j ≠ index → (s.displays.getD j default).active = true →
      (s.displays.getD j default).settings.isSome = true) :
    (s.set_primary index).2 = .error (.noSettings (s.displays.getD k default).name) ∧
    (s.set_primary index).1.primary_display = s.primary_display ∧
    (s.set_primary index).1.displays.length = s.displays.length ∧
    ∀ j, (s.set_primary index).1.displays.getD j default =
      if j < k ∧ j ≠ index ∧ (s.displays.getD j default).active = true then
        translated ((s.displays.getD index default).settings.getD default).position
          (s.displays.getD j default)
      else s.displays.getD j default := by
  simp only [DisplaySet.set_primary]
  rw [if_neg (by rw [ha]; simp)]
  obtain ⟨st, hst⟩ := Option.isSome_iff_exists.mp hasome
  rw [hst]
  dsimp only
  obtain ⟨herr, hchar⟩ := setPrimaryLoop_err st.position index s.displays 0 k hk hka
    (by omega) hks (fun j hj hactj hij => hbefore j hj (by omega) hactj)
  rw [herr]
  dsimp only
  refine ⟨rfl, rfl, setPrimaryLoop_length st.position index s.displays 0, fun j => ?_⟩
  have hthis := hchar j
  simp only [Option.getD_some]
  by_cases hc : j < k ∧ j ≠ index ∧ (s.displays.getD j default).active = true
  · rw [if_pos hc]
    rw [if_pos ⟨hc.1, hc.2.2, by omega⟩] at hthis
    exact hthis
  · rw [if_neg hc]
    rw [if_neg (fun hcon => hc ⟨hcon.1, by omega, hcon.2.1⟩)] at hthis
    exact hthis

theorem setPrimaryLoop_none_isSome (o : Position) (index : Nat) :
    ∀ (ds : List DisplayProperties) (i : Nat),
      (setPrimaryLoop o index ds i).2 = none →
      ∀ j, j < ds.length → (ds.getD j default).active = true → i + j ≠ index →
        (ds.getD j default).settings.isSome = true := by
  intro ds
  induction ds with
  | nil => intro i _ j hj; exact absurd hj (by simp)
  | cons d rest ih =>
    intro i hnone j hj hact hij
    rw [setPrimaryLoop_cons] at hnone
    by_cases hcond : d.active = true ∧ i ≠ index
    · rw [if_pos hcond] at hnone
      cases hst : d.settings with
      | none => rw [hst] at hnone; exact absurd hnone (by simp)
      | some st =>
        rw [hst] at hnone
        dsimp only at hnone
        cases j with
        | zero => simp [hst]
        | succ j =>
          have := ih (i + 1) hnone j (by simpa using hj) (by simpa using hact) (by omega)
          simpa using this
    · rw [if_neg hcond] at hnone
      cases j with
      | zero =>
        exfalso
        exact hcond ⟨by simpa using hact, by omega⟩
      | succ j =>
        have := ih (i + 1) hnone j (by simpa using hj) (by simpa using hact) (by omega)
        simpa using this

theorem set_primary_ok_isSome (s : DisplaySet) (index : Nat)
    (hok : (s.set_primary index).2 = .ok ()) :
    ∀ j, j < s.displays.length → (s.displays.getD j default).active = true →
      (s.displays.getD j default).settings.isSome = true := by
  intro j hj hact
  have hmain : (s.set_primary index).2 = .ok () → j < s.displays.length →
      (s.displays.getD j default).active = true →
      (s.displays.getD j default).settings.isSome = true := by
    simp only [DisplaySet.set_primary]
    by_cases hact' : (s.displays.getD index default).active = false
    · rw [if_pos hact']
      intro h
      exact absurd h (by simp)
    · rw [if_neg hact']
      cases hst : (s.displays.getD index default).settings with
      | none =>
        intro h
        exact absurd h (by simp)
      | some st =>
        dsimp only
        cases hr2 : (setPrimaryLoop st.position index s.displays 0).2 with
        | some e =>
          intro h
          exact absurd h (by simp)
        | none =>
          intro _ hj' hact'
          by_cases hji : j = index
          · subst hji
            rw [hst]
            rfl
          · exact setPrimaryLoop_none_isSome st.position index s.displays 0 hr2 j hj' hact'
              (by omega)
  exact hmain hok hj hact

theorem set_primary_ok_target_active (s : DisplaySet) (index : Nat)
    (hok : (s.set_primary index).2 = .ok ()) :
    (s.displays.getD index default).active = true := by
  cases hh : (s.displays.getD index default).active
  · rw [set_primary_inactive s index hh] at hok
    exact absurd hok (by simp)
  · rfl

theorem set_primary_ok_active (s : DisplaySet) (index : Nat)
    (hidx : index < s.displays.length)
    (hok : (s.set_primary index).2 = .ok ()) :
    ∀ j, ((s.set_primary index).1.displays.getD j default).active
      = (s.displays.getD j default).active := by
  intro j
  obtain ⟨_, _, _, _, hel⟩ := set_primary_ok_char s index hidx hok
  rw [hel j]
  by_cases hj : j = index
  · subst hj; rw [if_pos rfl]
  · rw [if_neg hj]
    by_cases hactj : (s.displays.getD j default).active = true
    · rw [if_pos hactj]
      exact (translated_fields _ _).2.1
    · rw [if_neg hactj]

theorem active_getD_lt {l : List DisplayProperties} {j : Nat}
    (h : (l.getD j default).active = true) : j < l.length := by
  by_contra hge
  rw [List.getD_eq_default l default (by omega)] at h
  exact absurd h (by decide)

theorem translated_primary {o : Position} {d : DisplayProperties}
    (h : d.settings.isSome = true) : (translated o d).primary = false := by
  obtain ⟨st, hst⟩ := Option.isSome_iff_exists.mp h
  simp [translated, hst]

theorem translated_zero {d : DisplayProperties} (hp : d.primary = false) :
    translated (Position.new 0 0) d = d := by
  cases hst : d.settings with
  | none => simp [translated, hst]
  | some st =>
    cases d with
    | mk n s k a p stt =>
      simp only at hst hp
      subst hst hp
      simp [translated, Position.neg_zero_add]

theorem set_primary_ok_positionAt (s : DisplaySet) (index : Nat)
    (hidx : index < s.displays.length)
    (hok : (s.set_primary index).2 = .ok ()) :
    ∃ origin, s.positionAt index = some origin ∧
      (s.set_primary index).1.positionAt index = some (Position.new 0 0) ∧
      ∀ j, j ≠ index →
        (s.set_primary index).1.positionAt j =
          if (s.displays.getD j default).active = true then
            (s.positionAt j).map fun p => -origin + p
          else s.positionAt j := by
  obtain ⟨_, _, _, _, hel⟩ := set_primary_ok_char s index hidx hok
  have hta := set_primary_ok_target_active s index hok
  obtain ⟨st, hst⟩ := Option.isSome_iff_exists.mp (set_primary_ok_isSome s index hok index hidx hta)
  refine ⟨st.position, by unfold DisplaySet.positionAt; rw [hst]; rfl, ?_, ?_⟩
  · have hthis := hel index
    rw [if_pos rfl] at hthis
    unfold DisplaySet.positionAt
    rw [hthis]
    simp
  · intro j hj
    have hthis := hel j
    rw [if_neg hj] at hthis
    by_cases hactj : (s.displays.getD j default).active = true
    · rw [if_pos hactj] at hthis
      rw [if_pos hactj]
      have hjlt : j < s.displays.length := active_getD_lt hactj
      obtain ⟨stj, hstj⟩ := Option.isSome_iff_exists.mp
        (set_primary_ok_isSome s index hok j hjlt hactj)
      unfold DisplaySet.positionAt
      rw [hthis, hst]
      simp only [translated, Option.getD_some]
      rw [hstj]
      simp
    · rw [if_neg hactj] at hthis
      rw [if_neg hactj]
      unfold DisplaySet.positionAt
      rw [hthis]

theorem set_primary_ok_idem (s : DisplaySet) (index : Nat)
    (hidx : index < s.displays.length)
    (hok : (s.set_primary index).2 = .ok ()) :
    ((s.set_primary index).1.set_primary index).2 = .ok () ∧
    ((s.set_primary index).1.set_primary index).1 = (s.set_primary index).1 := by
  obtain ⟨hp1, hlen1, hpaths1, hmodes1, hel1⟩ := set_primary_ok_char s index hidx hok
  have hta := set_primary_ok_target_active s index hok
  obtain ⟨st, hst⟩ := Option.isSome_iff_exists.mp
    (set_primary_ok_isSome s index hok index hidx hta)
  set s1 := (s.set_primary index).1 with hs1
  have hidx1 : index < s1.displays.length := by rw [hlen1]; exact hidx
  have htarget1 : s1.displays.getD index default =
      { s.displays.getD index default with
          settings := some { (s.displays.getD index default).settings.getD default with
            position := Position.new 0 0 },
          primary := true } := by
    have hthis := hel1 index
    rwa [if_pos rfl] at hthis
  have ha1 : (s1.displays.getD index default).active = true := by
    rw [htarget1]; exact hta
  have hactive1 : ∀ j, (s1.displays.getD j default).active = (s.displays.getD j default).active :=
    set_primary_ok_active s index hidx hok
  have hall1 : ∀ j, j < s1.displays.length → (s1.displays.getD j default).active = true →
      (s1.displays.getD j default).settings.isSome = true := by
    intro j hj hactj
    have hactj0 : (s.displays.getD j default).active = true := by
      rw [← hactive1 j]; exact hactj
    have hj0 : j < s.displays.length := by rw [← hlen1]; exact hj
    have hthis := hel1 j
    by_cases hje : j = index
    · subst hje
      rw [htarget1]
      rfl
    · rw [if_neg hje, if_pos hactj0] at hthis
      rw [hthis, (translated_fields _ _).2.2]
      exact set_primary_ok_isSome s index hok j hj0 hactj0
  have hok1 : (s1.set_primary index).2 = .ok () :=
    set_primary_succeeds s1 index hidx1 ha1 hall1
  refine ⟨hok1, ?_⟩
  obtain ⟨hp2, hlen2, hpaths2, hmodes2, hel2⟩ := set_primary_ok_char s1 index hidx1 hok1
  have hst1 : (s1.displays.getD index default).settings
      = some { st with position := Position.new 0 0 } := by
    rw [htarget1, hst]
    rfl
  apply DisplaySet.ext'
  · apply list_ext_getD (by rw [hlen2])
    intro j
    have h2 := hel2 j
    by_cases hje : j = index
    · rw [hje]
      have h2i := hel2 index
      rw [h2i, if_pos rfl, hst1, htarget1]
      have hst' : (s.displays[index]?.getD default).settings = some st := by
        rw [← List.getD_eq_getElem?_getD]; exact hst
      simp [hst']
    · rw [h2, if_neg hje]
      by_cases hactj : (s1.displays.getD j default).active = true
      · rw [if_pos hactj, hst1]
        simp only [Option.getD_some]
        have hactj0 : (s.displays.getD j default).active = true := by
          rw [← hactive1 j]; exact hactj
        have hprim : (s1.displays.getD j default).primary = false := by
          have hthis := hel1 j
          rw [if_neg hje, if_pos hactj0] at hthis
          rw [hthis]
          apply translated_primary
          exact set_primary_ok_isSome s index hok j (by
            rw [← hlen1]; exact active_getD_lt hactj) hactj0
        exact translated_zero hprim
      · rw [if_neg hactj]
  · rw [hp2, hp1]
  · rw [hpaths2, hpaths1]
  · rw [hmodes2, hmodes1]

theorem set_primary_ok_hall (s : DisplaySet) (index : Nat)
    (hidx : index < s.displays.length)
    (hok : (s.set_primary index).2 = .ok ()) :
    ∀ j, j < (s.set_primary index).1.displays.length →
      ((s.set_primary index).1.displays.getD j default).active = true →
      ((s.set_primary index).1.displays.getD j default).settings.isSome = true := by
  obtain ⟨_, hlen1, _, _, hel1⟩ := set_primary_ok_char s index hidx hok
  intro j hj hactj
  have hactj0 : (s.displays.getD j default).active = true := by
    rw [← set_primary_ok_active s index hidx hok j]; exact hactj
  have hj0 : j < s.displays.length := by rw [← hlen1]; exact hj
  have hthis := hel1 j
  by_cases hje : j = index
  · rw [hje] at hthis ⊢
    rw [hthis, if_pos rfl]
    rfl
  · rw [if_neg hje, if_pos hactj0] at hthis
    rw [hthis, (translated_fields _ _).2.2]
    exact set_primary_ok_isSome s index hok j hj0 hactj0

theorem positionAt_isSome {s : DisplaySet} {j : Nat}
    (h : (s.displays.getD j default).settings.isSome = true) :
    ∃ p, s.positionAt j = some p := by
  obtain ⟨st, hst⟩ := Option.isSome_iff_exists.mp h
  exact ⟨st.position, by unfold DisplaySet.positionAt; rw [hst]; rfl⟩

theorem Position.add_new_zero (p : Position) : p + Position.new 0 0 = p := by
  cases p
  simp only [Position.new, Position.add_def, Position.mk.injEq]
  omega

/-- C7: calling `set_primary` on a display that is not active returns the
PrimaryDisplay precondition error and changes nothing: the returned set —
every display's settings and primary flag, and the primary-index pointer —
is exactly the input set. -/
theorem c7_inactive_target_error_no_change (s : DisplaySet) (index : Nat)
    (hidx : index < s.displays.length)
    (ha : (s.displays.getD index default).active = false) :
    s.set_primary index = (s, .error .primaryDisplay) :=
  set_primary_inactive s index ha

/-- Witness for C7 at a concrete two-display set. -/
theorem c7_inactive_target_error_no_change_witness :
    1 < exSetC7.displays.length ∧
    (exSetC7.displays.getD 1 default).active = false ∧
    exSetC7.set_primary 1 = (exSetC7, .error .primaryDisplay) :=
  ⟨by decide, by decide, c7_inactive_target_error_no_change exSetC7 1 (by decide) (by decide)⟩

/-- C2: whenever `set_primary` succeeds on the display at `index`, afterwards
that display's position is exactly (0,0), its `is_primary` view reports true,
and exactly one index of the set reports `is_primary` (the pointer singles out
one index). -/
theorem c2_set_primary_success_postconditions (s : DisplaySet) (index : Nat)
    (hidx : index < s.displays.length)
    (hok : (s.set_primary index).2 = .ok ()) :
    (s.set_primary index).1.positionAt index = some (Position.new 0 0) ∧
    (s.set_primary index).1.is_primary index = true ∧
    ((Finset.range (s.set_primary index).1.displays.length).filter
      (fun j => (s.set_primary index).1.is_primary j = true)).card = 1 := by
  obtain ⟨hp, hlen, _, _, hel⟩ := set_primary_ok_char s index hidx hok
  obtain ⟨origin, _, hzero, _⟩ := set_primary_ok_positionAt s index hidx hok
  refine ⟨hzero, by simp [DisplaySet.is_primary, hp], ?_⟩
  have hcong : ∀ j ∈ Finset.range (s.set_primary index).1.displays.length,
      ((s.set_primary index).1.is_primary j = true) ↔ j = index := by
    intro j _
    simp only [DisplaySet.is_primary, hp, beq_iff_eq]
    exact eq_comm
  rw [Finset.filter_congr hcong, Finset.filter_eq',
    if_pos (by rw [Finset.mem_range, hlen]; exact hidx)]
  exact Finset.card_singleton index

/-- Witness for C2 at a concrete two-display set, making display 1 primary. -/
theorem c2_set_primary_success_postconditions_witness :
    1 < exSetC2.displays.length ∧ (exSetC2.set_primary 1).2 = .ok () ∧
    ((exSetC2.set_primary 1).1.positionAt 1 = some (Position.new 0 0) ∧
      (exSetC2.set_primary 1).1.is_primary 1 = true ∧
      ((Finset.range (exSetC2.set_primary 1).1.displays.length).filter
        (fun j => (exSetC2.set_primary 1).1.is_primary j = true)).card = 1) :=
  ⟨by decide, by decide,
    c2_set_primary_success_postconditions exSetC2 1 (by decide) (by decide)⟩

/-- C3: whenever `set_primary` succeeds, the target ends at (0,0) and every
other active display's new position is its old position minus the target's
old position (`-old_position + pos` in the source equals `pos - old_position`
componentwise). -/
theorem c3_translation_correctness (s : DisplaySet) (index : Nat)
    (hidx : index < s.displays.length)
    (hok : (s.set_primary index).2 = .ok ()) :
    ∃ origin, s.positionAt index = some origin ∧
      (s.set_primary index).1.positionAt index = some (Position.new 0 0) ∧
      ∀ j, j ≠ index → (s.displays.getD j default).active = true →
        (s.set_primary index).1.positionAt j = (s.positionAt j).map fun p => p - origin := by
  obtain ⟨origin, ho, hzero, hf⟩ := set_primary_ok_positionAt s index hidx hok
  refine ⟨origin, ho, hzero, fun j hj hactj => ?_⟩
  rw [hf j hj, if_pos hactj]
  cases s.positionAt j with
  | none => rfl
  | some p => simp [Position.neg_add_eq_sub]

/-- Witness for C3: with A at (0,0) and B at (1920,0), `set_primary B` moves A
to (-1920,0) and B to (0,0). -/
theorem c3_translation_correctness_witness :
    1 < exSetC3.displays.length ∧ (exSetC3.set_primary 1).2 = .ok () ∧
    (∃ origin, exSetC3.positionAt 1 = some origin ∧
      (exSetC3.set_primary 1).1.positionAt 1 = some (Position.new 0 0) ∧
      ∀ j, j ≠ 1 → (exSetC3.displays.getD j default).active = true →
        (exSetC3.set_primary 1).1.positionAt j
          = (exSetC3.positionAt j).map fun p => p - origin) ∧
    (exSetC3.set_primary 1).1.positionAt 0 = some (Position.new (-1920) 0) ∧
    (exSetC3.set_primary 1).1.positionAt 1 = some (Position.new 0 0) :=
  ⟨by decide, by decide,
    c3_translation_correctness exSetC3 1 (by decide) (by decide),
    by decide, by decide⟩

/-- C10: when every active display has settings and the active target is
already at the origin, `set_primary` succeeds, leaves every display's
position unchanged, and running it a second time yields exactly the same
state as running it once. -/
theorem c10_set_primary_idempotent (s : DisplaySet) (index : Nat)
    (hidx : index < s.displays.length)
    (ha : (s.displays.getD index default).active = true)
    (hall : ∀ j, j < s.displays.length → (s.displays.getD j default).active = true →
      (s.displays.getD j default).settings.isSome = true)
    (hpos : s.positionAt index = some (Position.new 0 0)) :
    (s.set_primary index).2 = .ok () ∧
    (∀ j, (s.set_primary index).1.positionAt j = s.positionAt j) ∧
    ((s.set_primary index).1.set_primary index).1 = (s.set_primary index).1 := by
  have hok := set_primary_succeeds s index hidx ha hall
  refine ⟨hok, ?_, (set_primary_ok_idem s index hidx hok).2⟩
  obtain ⟨origin, ho, hzero, hf⟩ := set_primary_ok_positionAt s index hidx hok
  have horigin : origin = Position.new 0 0 := Option.some_inj.mp (ho.symm.trans hpos)
  intro j
  by_cases hj : j = index
  · rw [hj, hzero, hpos]
  · rw [hf j hj]
    by_cases hactj : (s.displays.getD j default).active = true
    · rw [if_pos hactj, horigin]
      cases s.positionAt j with
      | none => rfl
      | some p => simp [Position.neg_zero_add]
    · rw [if_neg hactj]

/-- Witness for C10 at a concrete two-display set (target at the origin). -/
theorem c10_set_primary_idempotent_witness :
    0 < exSetC2.displays.length ∧ exSetC2.positionAt 0 = some (Position.new 0 0) ∧
    ((exSetC2.set_primary 0).2 = .ok () ∧
      (∀ j, (exSetC2.set_primary 0).1.positionAt j = exSetC2.positionAt j) ∧
      ((exSetC2.set_primary 0).1.set_primary 0).1 = (exSetC2.set_primary 0).1) :=
  ⟨by decide, by decide,
    c10_set_primary_idempotent exSetC2 0 (by decide) (by decide)
      (by
        intro j hj hactj
        have hj2 : j < 2 := hj
        interval_cases j <;> decide) (by decide)⟩

/-- C1 counterexample: `set_primary` is not all-or-nothing.  On a set whose
display 1 (active) lacks settings, `set_primary 2` returns the
missing-settings error, yet display 0's position has already been translated
from (100,0) to (93,0) — a display was mutated before the validation of all
active displays completed. -/
theorem c1_counterexample :
    (exSetC1.set_primary 2).2 = .error (.noSettings "B") ∧
    exSetC1.positionAt 0 = some (Position.new 100 0) ∧
    (exSetC1.set_primary 2).1.positionAt 0 = some (Position.new 93 0) ∧
    (exSetC1.set_primary 2).1.positionAt 0 ≠ exSetC1.positionAt 0 := by
  decide

/-- C1 (amended): when the target is active with settings but another active
display lacks settings, `set_primary` fails with that display's
missing-settings error and leaves the primary-index pointer unchanged; but
validation is interleaved with mutation, so every active non-target display
before the first settings-less display has already had its position
translated by the negated origin and its primary flag cleared, while the
displays from the failing one onward are untouched. -/
theorem c1_missing_settings_interleaved (s : DisplaySet) (index k : Nat)
    (hidx : index < s.displays.length)
    (ha : (s.displays.getD index default).active = true)
    (hasome : (s.displays.getD index default).settings.isSome = true)
    (hk : k < s.displays.length)
    (hkne : k ≠ index)
    (hka : (s.displays.getD k default).active = true)
    (hks : (s.displays.getD k default).settings = none)
    (hbefore : ∀ j, j < k → j ≠ index → (s.displays.getD j default).active = true →
      (s.displays.getD j default).settings.isSome = true) :
    (s.set_primary index).2 = .error (.noSettings (s.displays.getD k default).name) ∧
    (s.set_primary index).1.primary_display = s.primary_display ∧
    (s.set_primary index).1.displays.length = s.displays.length ∧
    ∀ j, (s.set_primary index).1.displays.getD j default =
      if j < k ∧ j ≠ index ∧ (s.displays.getD j default).active = true then
        translated ((s.displays.getD index default).settings.getD default).position
          (s.displays.getD j default)
      else s.displays.getD j default :=
  set_primary_err_char s index k hidx ha hasome hk hkne hka hks hbefore

/-- Witness for C1 (amended) at the concrete fixture: the error is reported
for display 1, the pointer is unchanged, display 0 (before the failing
display) is translated, and display 1 is untouched. -/
theorem c1_missing_settings_interleaved_witness :
    (exSetC1.set_primary 2).2 = .error (.noSettings (exSetC1.displays.getD 1 default).name) ∧
    (exSetC1.set_primary 2).1.primary_display = exSetC1.primary_display ∧
    (exSetC1.set_primary 2).1.displays.getD 0 default =
      translated ((exSetC1.displays.getD 2 default).settings.getD default).position
        (exSetC1.displays.getD 0 default) ∧
    (exSetC1.set_primary 2).1.displays.getD 1 default = exSetC1.displays.getD 1 default := by
  obtain ⟨h1, h2, h3, h4⟩ := c1_missing_settings_interleaved exSetC1 2 1 (by decide) (by decide)
    (by decide) (by decide) (by decide) (by decide) (by decide)
    (by
      intro j hj hij hactj
      have hj1 : j < 1 := hj
      interval_cases j <;> decide)
  refine ⟨h1, h2, ?_, ?_⟩
  · have h5 := h4 0
    rwa [if_pos ⟨by decide, by decide, by decide⟩] at h5
  · have h5 := h4 1
    rwa [if_neg (fun hcon => by exact absurd hcon.1 (by decide))] at h5

/-- C4 (amended): with every active display carrying settings and active
displays `a`, `b`, the sequence `set_primary a; set_primary b; set_primary a`
succeeds throughout and yields exactly the same positions as the single call
`set_primary a`; consequently it restores every display's original position
exactly when `a` was already at the origin (0,0) before the sequence (e.g.
when `a` is the current primary), not in general. -/
theorem c4_group_action (s : DisplaySet) (a b : Nat)
    (hA : a < s.displays.length) (hB : b < s.displays.length)
    (haA : (s.displays.getD a default).active = true)
    (haB : (s.displays.getD b default).active = true)
    (hall : ∀ j, j < s.displays.length → (s.displays.getD j default).active = true →
      (s.displays.getD j default).settings.isSome = true) :
    (s.set_primary a).2 = .ok () ∧
    ((s.set_primary a).1.set_primary b).2 = .ok () ∧
    (((s.set_primary a).1.set_primary b).1.set_primary a).2 = .ok () ∧
    (∀ j, (((s.set_primary a).1.set_primary b).1.set_primary a).1.positionAt j
      = (s.set_primary a).1.positionAt j) ∧
    (s.positionAt a = some (Position.new 0 0) →
      ∀ j, (((s.set_primary a).1.set_primary b).1.set_primary a).1.positionAt j
        = s.positionAt j) := by
  have hok1 := set_primary_succeeds s a hA haA hall
  have hlen1 : (s.set_primary a).1.displays.length = s.displays.length :=
    (set_primary_ok_char s a hA hok1).2.1
  have hact1 := set_primary_ok_active s a hA hok1
  have hall1 := set_primary_ok_hall s a hA hok1
  have hB1 : b < (s.set_primary a).1.displays.length := by rw [hlen1]; exact hB
  have hA1 : a < (s.set_primary a).1.displays.length := by rw [hlen1]; exact hA
  have haB1 : ((s.set_primary a).1.displays.getD b default).active = true := by
    rw [hact1]; exact haB
  have hok2 := set_primary_succeeds (s.set_primary a).1 b hB1 haB1 hall1
  have hlen2 : ((s.set_primary a).1.set_primary b).1.displays.length
      = (s.set_primary a).1.displays.length :=
    (set_primary_ok_char (s.set_primary a).1 b hB1 hok2).2.1
  have hact2 := set_primary_ok_active (s.set_primary a).1 b hB1 hok2
  have hall2 := set_primary_ok_hall (s.set_primary a).1 b hB1 hok2
  have hA2 : a < ((s.set_primary a).1.set_primary b).1.displays.length := by
    rw [hlen2]; exact hA1
  have haA2 : (((s.set_primary a).1.set_primary b).1.displays.getD a default).active
      = true := by
    rw [hact2, hact1]; exact haA
  have hok3 := set_primary_succeeds ((s.set_primary a).1.set_primary b).1 a hA2 haA2 hall2
  have hseq : ∀ j, (((s.set_primary a).1.set_primary b).1.set_primary a).1.positionAt j
      = (s.set_primary a).1.positionAt j := by
    by_cases hab : a = b
    · have hidem1 := set_primary_ok_idem s a hA hok1
      have hs2 : ((s.set_primary a).1.set_primary b).1 = (s.set_primary a).1 := by
        rw [← hab]
        exact hidem1.2
      intro j
      rw [hs2, hidem1.2]
    · obtain ⟨o0, ho0, hz1, hf1⟩ := set_primary_ok_positionAt s a hA hok1
      obtain ⟨o1, ho1, hz2, hf2⟩ :=
        set_primary_ok_positionAt (s.set_primary a).1 b hB1 hok2
      obtain ⟨o2, ho2, hz3, hf3⟩ :=
        set_primary_ok_positionAt ((s.set_primary a).1.set_primary b).1 a hA2 hok3
      have ho2eq : o2 = -o1 + Position.new 0 0 := by
        have h := hf2 a hab
        rw [if_pos (by rw [hact1]; exact haA), hz1] at h
        have hcomb := ho2.symm.trans h
        simp only [Option.map_some'] at hcomb
        exact Option.some_inj.mp hcomb
      intro j
      by_cases hja : j = a
      · rw [hja, hz3, hz1]
      · by_cases hjb : j = b
        · rw [hjb]
          have h3 := hf3 b (fun h => hab h.symm)
          rw [h3, if_pos (by rw [hact2, hact1]; exact haB), hz2, ho1]
          simp only [Option.map_some']
          congr 1
          rw [ho2eq]
          cases o1
          simp only [Position.new, Position.add_def, Position.neg_def, Position.mk.injEq]
          omega
        · by_cases hactj : (s.displays.getD j default).active = true
          · have h3 := hf3 j hja
            rw [h3, if_pos (by rw [hact2, hact1]; exact hactj)]
            have h2 := hf2 j hjb
            rw [h2, if_pos (by rw [hact1]; exact hactj)]
            have h1 := hf1 j hja
            rw [h1, if_pos hactj]
            cases hpj : s.positionAt j with
            | none => rfl
            | some p =>
              simp only [Option.map_some']
              congr 1
              rw [ho2eq]
              cases o0; cases o1; cases p
              simp only [Position.new, Position.add_def, Position.neg_def, Position.mk.injEq]
              omega
          · have h3 := hf3 j hja
            rw [h3, if_neg (by rw [hact2, hact1]; exact hactj)]
            have h2 := hf2 j hjb
            rw [h2, if_neg (by rw [hact1]; exact hactj)]
  refine ⟨hok1, hok2, hok3, hseq, fun hpos j => ?_⟩
  rw [hseq j]
  obtain ⟨o0, ho0, hz1, hf1⟩ := set_primary_ok_positionAt s a hA hok1
  have ho0eq : o0 = Position.new 0 0 := Option.some_inj.mp (ho0.symm.trans hpos)
  by_cases hja : j = a
  · rw [hja, hz1, hpos]
  · rw [hf1 j hja]
    by_cases hactj : (s.displays.getD j default).active = true
    · rw [if_pos hactj, ho0eq]
      cases s.positionAt j with
      | none => rfl
      | some p => simp [Position.neg_zero_add]
    · rw [if_neg hactj]

/-- C4 counterexample: with A at (5,0) and B at (7,0), the sequence
`set_primary A; set_primary B; set_primary A` succeeds but ends with A at
(0,0), not at its original (5,0): the sequence does not restore the original
positions when A was not at the origin beforehand. -/
theorem c4_counterexample :
    exSetC4.positionAt 0 = some (Position.new 5 0) ∧
    (((exSetC4.set_primary 0).1.set_primary 1).1.set_primary 0).2 = .ok () ∧
    (((exSetC4.set_primary 0).1.set_primary 1).1.set_primary 0).1.positionAt 0
      = some (Position.new 0 0) ∧
    (((exSetC4.set_primary 0).1.set_primary 1).1.set_primary 0).1.positionAt 0
      ≠ exSetC4.positionAt 0 := by
  decide

/-- Witness for C4 (amended) at a concrete set with A already at the origin:
after A;B;A, display 1 is back at its single-call and original position. -/
theorem c4_group_action_witness :
    (((exSetC2.set_primary 0).1.set_primary 1).1.set_primary 0).2 = .ok () ∧
    ((((exSetC2.set_primary 0).1.set_primary 1).1.set_primary 0).1.positionAt 1
      = (exSetC2.set_primary 0).1.positionAt 1) ∧
    ((((exSetC2.set_primary 0).1.set_primary 1).1.set_primary 0).1.positionAt 1
      = exSetC2.positionAt 1) := by
  obtain ⟨h1, h2, h3, h4, h5⟩ := c4_group_action exSetC2 0 1 (by decide) (by decide)
    (by decide) (by decide)
    (by
      intro j hj hactj
      have hj2 : j < 2 := hj
      interval_cases j <;> decide)
  exact ⟨h3, h4 1, h5 (by decide) 1⟩

theorem splitOnChar_head_cons (sep c : Char) (hc : c ≠ sep) (l : List Char) :
    ∃ q qs, splitOnChar sep (c :: l) = (c :: q) :: qs := by
  rw [splitOnChar_cons]
  cases hs : splitOnChar sep l with
  | nil => exact absurd hs (splitOnChar_ne_nil sep l)
  | cons part parts =>
    dsimp only
    rw [if_neg hc]
    exact ⟨part, parts, rfl⟩

theorem parseI32_not_digit_sign {c : Char} (h1 : c ≠ '+') (h2 : c ≠ '-')
    (h3 : charToDigit c = none) (l : List Char) : parseI32 (c :: l) = none := by
  simp only [parseI32, if_neg h1, if_neg h2, parseDigits_not_digit h3, Option.none_bind]

theorem position_from_str_fmtDisplay (p : Position) :
    Position.from_str (Position.fmtDisplay p) = .error .intError := by
  have hfmt : Position.fmtDisplay p
      = '(' :: (intToChars p.x ++ ',' :: ' ' :: intToChars p.y ++ [')']) := rfl
  obtain ⟨q, qs, hsp⟩ := splitOnChar_head_cons ',' '(' (by decide)
    (intToChars p.x ++ ',' :: ' ' :: intToChars p.y ++ [')'])
  unfold Position.from_str
  rw [hfmt, hsp]
  dsimp only
  rw [parseI32_not_digit_sign (by decide) (by decide) (by decide) q]

theorem resolution_roundtrip (r : Resolution) (hw : r.width < 2 ^ 32)
    (hh : r.height < 2 ^ 32) :
    Resolution.from_str (Resolution.fmtDisplay r) = .ok r := by
  have hxw : ('x' : Char) ∉ natToChars r.width :=
    char_not_mem_natToChars (Or.inl (by decide)) _
  have hxh : ('x' : Char) ∉ natToChars r.height :=
    char_not_mem_natToChars (Or.inl (by decide)) _
  unfold Resolution.fmtDisplay Resolution.from_str
  rw [splitOnChar_append hxw (natToChars r.height), splitOnChar_not_mem hxh]
  dsimp only
  rw [parseU32_natToChars hw]
  dsimp only
  rw [parseU32_natToChars hh]
  rfl

theorem frequency_roundtrip (f : Frequency) (hf : f.val < 2 ^ 32) :
    Frequency.from_str (Frequency.fmtDisplay f) = .ok f := by
  unfold Frequency.fmtDisplay Frequency.from_str
  rw [parseU32_natToChars hf]

theorem orientation_roundtrip (o : Types.Orientation) :
    Types.Orientation.from_str (Types.Orientation.fmtDisplay o) = .ok o := by
  cases o <;> decide

/-- C5 counterexample: the Position round trip fails already at (0,0) —
`format` yields "(0, 0)" while the parser expects "x,y", so parsing the
formatted text returns an integer-parse error, not the value. -/
theorem c5_counterexample :
    Position.from_str (Position.fmtDisplay (Position.new 0 0)) = .error .intError ∧
    Position.from_str (Position.fmtDisplay (Position.new 0 0)) ≠ .ok (Position.new 0 0) := by
  decide

/-- C5 (amended): parse(format(v)) = v holds for every Resolution (u32
components), Frequency (u32) and Orientation; for Position it fails for every
value, because the formatter emits "(x, y)" and the parser rejects the
leading parenthesis with an integer-parse error. -/
theorem c5_parse_format_roundtrip (r : Resolution) (f : Frequency)
    (o : Types.Orientation) (p : Position)
    (hw : r.width < 2 ^ 32) (hh : r.height < 2 ^ 32) (hf : f.val < 2 ^ 32) :
    Resolution.from_str (Resolution.fmtDisplay r) = .ok r ∧
    Frequency.from_str (Frequency.fmtDisplay f) = .ok f ∧
    Types.Orientation.from_str (Types.Orientation.fmtDisplay o) = .ok o ∧
    Position.from_str (Position.fmtDisplay p) = .error .intError :=
  ⟨resolution_roundtrip r hw hh, frequency_roundtrip f hf, orientation_roundtrip o,
    position_from_str_fmtDisplay p⟩

/-- Witness for C5 (amended) at concrete values. -/
theorem c5_parse_format_roundtrip_witness :
    (1920 : Nat) < 2 ^ 32 ∧
    (Resolution.from_str (Resolution.fmtDisplay (Resolution.new 1920 1080))
        = .ok (Resolution.new 1920 1080) ∧
      Frequency.from_str (Frequency.fmtDisplay ⟨60⟩) = .ok ⟨60⟩ ∧
      Types.Orientation.from_str (Types.Orientation.fmtDisplay .Portrait) = .ok .Portrait ∧
      Position.from_str (Position.fmtDisplay (Position.new 3 (-4))) = .error .intError) :=
  ⟨by decide, c5_parse_format_roundtrip (Resolution.new 1920 1080) ⟨60⟩ .Portrait
    (Position.new 3 (-4)) (by decide) (by decide) (by decide)⟩

theorem Legacy.applyLoop_cons (ret : String → Int) (d : DisplayProperties)
    (rest : List DisplayProperties) :
    Legacy.applyLoop ret (d :: rest) =
      if d.active = true then
        match (DisplayProperties.apply ret d).2 with
        | .error e => ((DisplayProperties.apply ret d).1, .error (.properties e))
        | .ok _ => ((DisplayProperties.apply ret d).1 ++ (Legacy.applyLoop ret rest).1,
            (Legacy.applyLoop ret rest).2)
      else Legacy.applyLoop ret rest := rfl

theorem DisplayProperties.apply_ok (ret : String → Int) (d : DisplayProperties)
    {st : DisplaySettings} (hst : d.settings = some st) (hret : ret d.name = 0) :
    DisplayProperties.apply ret d = ([commitCallOf d], .ok ()) := by
  unfold DisplayProperties.apply commitCallOf
  rw [hst]
  dsimp only
  rw [if_pos hret]
  simp

theorem DisplayProperties.apply_noSettings (ret : String → Int) (d : DisplayProperties)
    (hs : d.settings = none) :
    DisplayProperties.apply ret d = ([], .error (.noSettings d.name)) := by
  unfold DisplayProperties.apply
  rw [hs]

theorem legacy_applyLoop_trace (ret : String → Int) :
    ∀ ds : List DisplayProperties,
      (∀ d ∈ ds, d.active = true → d.settings.isSome = true) →
      (∀ d ∈ ds, d.active = true → ret d.name = 0) →
      Legacy.applyLoop ret ds = ((ds.filter fun d => d.active).map commitCallOf, .ok ()) := by
  intro ds
  induction ds with
  | nil => intro _ _; rfl
  | cons d rest ih =>
    intro hset hret
    have hrest := ih (fun x hx => hset x (List.mem_cons_of_mem d hx))
      (fun x hx => hret x (List.mem_cons_of_mem d hx))
    rw [Legacy.applyLoop_cons]
    by_cases hact : d.active = true
    · obtain ⟨st, hst⟩ :=
        Option.isSome_iff_exists.mp (hset d (List.mem_cons_self d rest) hact)
      rw [DisplayProperties.apply_ok ret d hst (hret d (List.mem_cons_self d rest) hact),
        if_pos hact]
      dsimp only
      rw [hrest, List.filter_cons_of_pos hact]
      rfl
    · rw [if_neg hact, hrest, List.filter_cons_of_neg (by simpa using hact)]

/-- C6 counterexample: in a legacy apply batch over a set whose primary
display sits at index 1, the first commit issued is the non-primary display's
(no CDS_SET_PRIMARY flag) and the primary's commit comes second — the
primary-first ordering property fails at this input. -/
theorem c6_counterexample :
    ¬ primaryCommitFirst (Legacy.DisplaySet.apply retOk exSetC6).1 ∧
    hasPrimaryFlag ((Legacy.DisplaySet.apply retOk exSetC6).1.getD 0 default) = false ∧
    hasPrimaryFlag ((Legacy.DisplaySet.apply retOk exSetC6).1.getD 1 default) = true := by
  decide

/-- C6 (amended): the legacy apply issues one commit per active display in
display-index (enumeration) order with no reordering — the trace is exactly
the active displays, in order, mapped to their commit calls (when every
active display has settings and every commit succeeds).  The primary
display's commit precedes a non-primary one's only when the primary happens
to have the lower index; no primary-first sort is performed. -/
theorem c6_legacy_apply_index_order (ret : String → Int) (s : DisplaySet)
    (hset : ∀ d ∈ s.displays, d.active = true → d.settings.isSome = true)
    (hret : ∀ d ∈ s.displays, d.active = true → ret d.name = 0) :
    Legacy.DisplaySet.apply ret s
      = ((s.displays.filter fun d => d.active).map commitCallOf, .ok ()) :=
  legacy_applyLoop_trace ret s.displays hset hret

/-- Witness for C6 (amended) at the concrete fixture. -/
theorem c6_legacy_apply_index_order_witness :
    Legacy.DisplaySet.apply retOk exSetC6
      = ((exSetC6.displays.filter fun d => d.active).map commitCallOf, .ok ()) :=
  c6_legacy_apply_index_order retOk exSetC6 (by decide) (by decide)

theorem modern_apply_result (s : DisplaySet) (commitResult : Int) :
    (s.apply commitResult).2 = if commitResult = 0 then .ok ()
      else .error (.failedToCommit commitResult) := by
  unfold DisplaySet.apply
  by_cases h : commitResult = 0
  · rw [if_pos h, if_pos h]
  · rw [if_neg h, if_neg h]

theorem legacy_applyLoop_missing_settings (ret : String → Int) :
    ∀ (ds : List DisplayProperties) (k : Nat),
      k < ds.length →
      (ds.getD k default).active = true →
      (ds.getD k default).settings = none →
      (∀ j, j < k → (ds.getD j default).active = true →
        (ds.getD j default).settings.isSome = true ∧ ret (ds.getD j default).name = 0) →
      (Legacy.applyLoop ret ds).2
        = .error (.properties (.noSettings (ds.getD k default).name)) := by
  intro ds
  induction ds with
  | nil => intro k hk; exact absurd hk (by simp)
  | cons d rest ih =>
    intro k hk ha hs hbefore
    rw [Legacy.applyLoop_cons]
    cases k with
    | zero =>
      rw [List.getD_cons_zero] at ha hs ⊢
      rw [if_pos ha, DisplayProperties.apply_noSettings ret d hs]
    | succ k =>
      rw [List.getD_cons_succ] at ha hs ⊢
      have hbrest : ∀ j, j < k → (rest.getD j default).active = true →
          (rest.getD j default).settings.isSome = true ∧
          ret (rest.getD j default).name = 0 := by
        intro j hj hactj
        have := hbefore (j + 1) (by omega) (by simpa using hactj)
        simpa using this
      by_cases hact : d.active = true
      · obtain ⟨hds, hdr⟩ := hbefore 0 (by omega) (by simpa using hact)
        obtain ⟨st, hst⟩ := Option.isSome_iff_exists.mp (by simpa using hds)
        rw [if_pos hact, DisplayProperties.apply_ok ret d hst (by simpa using hdr)]
        dsimp only
        exact ih k (by simpa using hk) ha hs hbrest
      · rw [if_neg hact]
        exact ih k (by simpa using hk) ha hs hbrest

/-- C9 counterexample: the topology-graph apply does not abort on an active
display without staged settings — it silently skips it and issues the single
commit, returning Ok when the commit succeeds, never a missing-settings
error. -/
theorem c9_counterexample :
    (exSetC9.displays.getD 0 default).active = true ∧
    (exSetC9.displays.getD 0 default).settings = none ∧
    (exSetC9.apply 0).2 = .ok () := by
  decide

/-- C9 (amended): only the per-device legacy apply aborts with the
missing-settings error (of the first active settings-less display, after the
earlier active displays were already committed); the topology-graph apply
never returns a missing-settings error — its only error is FailedToCommit
from the single commit call, and it silently skips active displays without
settings. -/
theorem c9_apply_missing_settings (ret : String → Int) (s : DisplaySet) (k : Nat)
    (commitResult : Int)
    (hk : k < s.displays.length)
    (hka : (s.displays.getD k default).active = true)
    (hks : (s.displays.getD k default).settings = none)
    (hbefore : ∀ j, j < k → (s.displays.getD j default).active = true →
      (s.displays.getD j default).settings.isSome = true ∧
      ret (s.displays.getD j default).name = 0) :
    (Legacy.DisplaySet.apply ret s).2
      = .error (.properties (.noSettings (s.displays.getD k default).name)) ∧
    ((s.apply commitResult).2 = if commitResult = 0 then .ok ()
      else .error (.failedToCommit commitResult)) ∧
    ∀ n, (s.apply commitResult).2 ≠ .error (.properties (.noSettings n)) ∧
      (s.apply commitResult).2 ≠ .error (.noSettings n) := by
  refine ⟨legacy_applyLoop_missing_settings ret s.displays k hk hka hks hbefore,
    modern_apply_result s commitResult, fun n => ?_⟩
  rw [modern_apply_result s commitResult]
  by_cases h : commitResult = 0
  · rw [if_pos h]
    exact ⟨by simp, by simp⟩
  · rw [if_neg h]
    exact ⟨by simp, by simp⟩

/-- Witness for C9 (amended) at the concrete fixture: the legacy apply
reports the missing settings of display 0 while the topology apply returns
Ok on a successful commit. -/
theorem c9_apply_missing_settings_witness :
    (Legacy.DisplaySet.apply retOk exSetC9).2
      = .error (.properties (.noSettings (exSetC9.displays.getD 0 default).name)) ∧
    ((exSetC9.apply 0).2 = if (0 : Int) = 0 then .ok ()
      else .error (.failedToCommit 0)) ∧
    ∀ n, (exSetC9.apply 0).2 ≠ .error (.properties (.noSettings n)) ∧
      (exSetC9.apply 0).2 ≠ .error (.noSettings n) :=
  c9_apply_missing_settings retOk exSetC9 0 0 (by decide) (by decide) (by decide)
    (fun j hj _ => absurd hj (by omega))

theorem from_windows_settings_iff_active (device : DISPLAY_DEVICE)
    (fetch : Except DisplayPropertiesError DisplaySettings)
    (props : DisplayProperties)
    (hok : DisplayProperties.from_windows device fetch = .ok props) :
    props.settings.isSome = props.active := by
  unfold DisplayProperties.from_windows at hok
  dsimp only at hok
  by_cases hact : ((device.stateFlags &&& 1) != 0) = true
  · rw [if_pos hact] at hok
    cases fetch with
    | error e => exact absurd hok (by simp [Except.map])
    | ok st =>
      simp only [Except.map] at hok
      have hinj := Except.ok.inj hok
      rw [← hinj]
      show (some st).isSome = (device.stateFlags &&& 1 != 0)
      rw [hact]
      rfl
  · rw [if_neg hact] at hok
    simp only [Except.map] at hok
    have hinj := Except.ok.inj hok
    have hfalse : (device.stateFlags &&& 1 != 0) = false := by
      revert hact
      cases device.stateFlags &&& 1 != 0 <;> simp
    rw [← hinj]
    show (none : Option DisplaySettings).isSome = (device.stateFlags &&& 1 != 0)
    rw [hfalse]
    rfl

theorem set_primary_preserves_presence (s : DisplaySet) (index : Nat) :
    ∀ j, ((s.set_primary index).1.displays.getD j default).settings.isSome
        = ((s.displays.getD j default).settings).isSome ∧
      ((s.set_primary index).1.displays.getD j default).active
        = (s.displays.getD j default).active := by
  intro j
  simp only [DisplaySet.set_primary]
  by_cases hact : (s.displays.getD index default).active = false
  · rw [if_pos hact]
    exact ⟨rfl, rfl⟩
  · rw [if_neg hact]
    cases hst : (s.displays.getD index default).settings with
    | none => exact ⟨rfl, rfl⟩
    | some st =>
      dsimp only
      have hpres := setPrimaryLoop_preserves st.position index s.displays 0 j
      cases hr2 : (setPrimaryLoop st.position index s.displays 0).2 with
      | some e =>
        dsimp only
        exact ⟨hpres.2.2, hpres.2.1⟩
      | none =>
        cases hts :
            ((setPrimaryLoop st.position index s.displays 0).1.getD index default).settings with
        | none =>
          dsimp only
          exact ⟨hpres.2.2, hpres.2.1⟩
        | some st₂ =>
          dsimp only
          have hactt : (s.displays.getD index default).active = true := by
            cases hcc : (s.displays.getD index default).active
            · exact absurd hcc hact
            · rfl
          have hidx : index < s.displays.length := active_getD_lt hactt
          have hlenl : (setPrimaryLoop st.position index s.displays 0).1.length
              = s.displays.length := setPrimaryLoop_length st.position index s.displays 0
          by_cases hj : j = index
          · rw [hj, getD_set_eq _ _ _ _ (by omega)]
            constructor
            · rw [hst]
              rfl
            · exact (setPrimaryLoop_preserves st.position index s.displays 0 index).2.1
          · rw [getD_set_ne _ _ _ (fun hx => hj hx.symm)]
            exact ⟨hpres.2.2, hpres.2.1⟩

theorem modifyAt_preserves_presence (f : DisplaySettings → DisplaySettings) :
    ∀ (l : List DisplayProperties) (i j : Nat),
      (((modifyAt (fun d => { d with settings := d.settings.map f }) l i).getD j
          default).settings).isSome = ((l.getD j default).settings).isSome ∧
      ((modifyAt (fun d => { d with settings := d.settings.map f }) l i).getD j
          default).active = (l.getD j default).active := by
  intro l
  induction l with
  | nil => intro i j; exact ⟨rfl, rfl⟩
  | cons d rest ih =>
    intro i j
    cases i with
    | zero =>
      cases j with
      | zero => simp [modifyAt]
      | succ j => simp [modifyAt]
    | succ i =>
      cases j with
      | zero => simp [modifyAt]
      | succ j =>
        simp only [modifyAt, List.getD_cons_succ]
        exact ih i j

theorem settingsIffActive_iff (s : DisplaySet) :
    settingsIffActive s ↔ ∀ j, ((s.displays.getD j default).settings).isSome
      = (s.displays.getD j default).active := by
  constructor
  · intro h j
    by_cases hj : j < s.displays.length
    · rw [List.getD_eq_getElem s.displays default hj]
      exact h _ (List.getElem_mem hj)
    · rw [List.getD_eq_default s.displays default (by omega)]
      rfl
  · intro h d hd
    obtain ⟨n, hn, hdn⟩ := List.getElem_of_mem hd
    have := h n
    rwa [List.getD_eq_getElem s.displays default hn, hdn] at this

theorem applyOp_preserves_presence (s : DisplaySet) (op : SetOp) :
    ∀ j, (((applyOp s op).displays.getD j default).settings).isSome
        = ((s.displays.getD j default).settings).isSome ∧
      ((applyOp s op).displays.getD j default).active
        = (s.displays.getD j default).active := by
  cases op with
  | set_primary i => exact set_primary_preserves_presence s i
  | mutateSettings i f => exact fun j => modifyAt_preserves_presence f s.displays i j

theorem runOps_settingsIffActive (ops : List SetOp) (s : DisplaySet)
    (h : settingsIffActive s) : settingsIffActive (runOps ops s) := by
  induction ops generalizing s with
  | nil => exact h
  | cons op ops ih =>
    apply ih
    rw [settingsIffActive_iff] at h ⊢
    intro j
    rw [(applyOp_preserves_presence s op j).1, (applyOp_preserves_presence s op j).2]
    exact h j

/-- C8: a display built by enumeration carries settings iff it is active, and
the settings-iff-active invariant is preserved by every sequence of
`set_primary` and settings-mutation operations (successful or not). -/
theorem c8_settings_present_iff_active (device : DISPLAY_DEVICE)
    (fetch : Except DisplayPropertiesError DisplaySettings) (props : DisplayProperties)
    (hok : DisplayProperties.from_windows device fetch = .ok props)
    (ops : List SetOp) (s : DisplaySet) (hinv : settingsIffActive s) :
    props.settings.isSome = props.active ∧ settingsIffActive (runOps ops s) :=
  ⟨from_windows_settings_iff_active device fetch props hok,
    runOps_settingsIffActive ops s hinv⟩

/-- Witness for C8 at concrete fixtures. -/
theorem c8_settings_present_iff_active_witness :
    exProps.settings.isSome = exProps.active ∧ settingsIffActive (runOps exOps exSetC2) :=
  c8_settings_present_iff_active exDevice (.ok (mkSettings (Position.new 0 0))) exProps
    (by decide) exOps exSetC2 (by decide)
